import Mathlib

/-!
# Shallow embedding of the django-budget-system budget/dayparting core

This file models the budget-and-dayparting state machine of the
`django-budget-system` repository (`budget_system/models.py`,
`budget_system/tasks.py`, `budget_system/views.py`) and proves properties of
the model.

Modelling conventions:
* Money (`DecimalField(decimal_places=2)`) is represented as `Int` cents;
  decimal arithmetic on two fractional digits is exact integer arithmetic
  on cents.
* `BudgetSummary` has `unique_together` on (brand, date), so the table is
  modelled as a partial map `Nat → Date → Option Summary` keyed by
  `(brand_id, date)`; row insert/update is a pointwise override.
* `Brand`, `Campaign`, `DaypartingSchedule`, `SpendRecord` tables are lists of
  rows; the sweeps iterate over them the way the Django querysets do.
* `timezone.now()` / `pytz` localization is external input; it is abstracted
  as a `Clock` giving the current (UTC) date and, per IANA timezone name, the
  brand-local weekday/hour of the current instant
  (`Brand.get_local_time` composed with `.weekday()` / `.hour`).
* Django model `save(update_fields=...)` persists only the listed fields;
  the row mutators below are written with exactly that footprint, applied at
  call sites where the in-memory instance coincides with the stored row
  (which is the case at every call site in the repository).
-/

/-- Campaign status values (`Campaign.STATUS_CHOICES`). -/
inductive CStatus where
  | ACTIVE
  | PAUSED_BUDGET
  | PAUSED_DAYPART
  | INACTIVE
deriving DecidableEq, Repr

/-- Calendar date (`datetime.date`): year, month, day. -/
structure Date where
  year : Nat
  month : Nat
  day : Nat
deriving DecidableEq, Repr

/-- `a <= b` on dates, lexicographically (as Python `datetime.date` ordering). -/
def Date.ble (a b : Date) : Bool :=
  decide (a.year < b.year ∨ (a.year = b.year ∧
    (a.month < b.month ∨ (a.month = b.month ∧ a.day ≤ b.day))))

/-- A brand-local instant reduced to what dayparting reads:
`local_time.weekday()` (0=Monday .. 6=Sunday) and `local_time.hour` (0..23). -/
structure LocalTime where
  weekday : Nat
  hour : Nat
deriving DecidableEq, Repr

/-- External time input: `timezone.now().date()` (UTC today) and the
brand-local weekday/hour obtained by localizing the current UTC instant into
a given IANA timezone (`Brand.get_local_time` + `.weekday()`/`.hour`). -/
structure Clock where
  today : Date
  localAt : String → LocalTime

/-- `Brand` model row (mutable columns not touched by the modelled code are
kept; `created_at`/`updated_at` timestamps are omitted). Budgets in cents. -/
structure Brand where
  id : Nat
  name : String
  daily_budget : Int
  monthly_budget : Int
  timezone : String
  is_active : Bool
deriving DecidableEq, Repr

/-- `Campaign` model row. -/
structure Campaign where
  id : Nat
  brand_id : Nat
  name : String
  status : CStatus
  is_active : Bool
deriving DecidableEq, Repr

/-- `DaypartingSchedule` model row. -/
structure DaypartingSchedule where
  campaign_id : Nat
  day_of_week : Nat
  start_hour : Nat
  end_hour : Nat
  is_active : Bool
deriving DecidableEq, Repr

/-- `SpendRecord` model row (amount in cents; `spend_datetime` reduced to its
date, which is the only part the modelled code reads; `record_type` is
constant DAILY at the single creation site and is omitted). -/
structure SpendRecord where
  brand_id : Nat
  campaign_id : Nat
  amount : Int
  spend_date : Date
deriving DecidableEq, Repr

/-- `BudgetSummary` model row (money in cents). -/
structure Summary where
  brand_id : Nat
  date : Date
  daily_spend : Int
  monthly_spend : Int
  daily_remaining : Int
  monthly_remaining : Int
deriving DecidableEq, Repr

/-- Database state: the five tables. `summaries` is keyed by
`(brand_id, date)` per `unique_together`. -/
structure DBState where
  brands : List Brand
  campaigns : List Campaign
  schedules : List DaypartingSchedule
  spendRecords : List SpendRecord
  summaries : Nat → Date → Option Summary

/-- Foreign-key resolution `campaign.brand` / `Brand.objects.get(id=...)`. -/
def findBrand (st : DBState) (bid : Nat) : Option Brand :=
  st.brands.find? (fun b => b.id == bid)

/-- Row lookup `Campaign.objects.get(id=...)`. -/
def findCampaign (st : DBState) (cid : Nat) : Option Campaign :=
  st.campaigns.find? (fun c => c.id == cid)

/-- The status column of campaign `cid`, if the row exists. -/
def statusOf (st : DBState) (cid : Nat) : Option CStatus :=
  (findCampaign st cid).map (·.status)

/-- The brand_id column of campaign `cid`, if the row exists. -/
def campaignBrandId (st : DBState) (cid : Nat) : Option Nat :=
  (findCampaign st cid).map (·.brand_id)

/-- `campaign.status = v` followed by a save of the status column:
write status `v` to the campaign row with id `cid`. -/
def setStatus (st : DBState) (cid : Nat) (v : CStatus) : DBState :=
  { st with campaigns :=
      st.campaigns.map (fun c => if c.id == cid then { c with status := v } else c) }

/-- `summary.save(...)` row write: store `s` at key `(s.brand_id, s.date)`. -/
def writeSummary (st : DBState) (s : Summary) : DBState :=
  { st with summaries := fun bid d =>
      if bid = s.brand_id ∧ d = s.date then some s else st.summaries bid d }

/-- `BudgetSummary.save`: before storing, recompute
`daily_remaining = brand.daily_budget - daily_spend` and
`monthly_remaining = brand.monthly_budget - monthly_spend` on the in-memory
instance (models.py 442-446). -/
def Summary.save_mem (b : Brand) (s : Summary) : Summary :=
  { s with daily_remaining := b.daily_budget - s.daily_spend,
           monthly_remaining := b.monthly_budget - s.monthly_spend }

/-- `BudgetSummary.update_daily_spend`: `daily_spend += amount` then `save`
persisting only the daily columns plus the timestamp (update_fields) (models.py 448-451). -/
def Summary.update_daily_spend (b : Brand) (s : Summary) (amount : Int) : Summary :=
  let mem := Summary.save_mem b { s with daily_spend := s.daily_spend + amount }
  { s with daily_spend := mem.daily_spend, daily_remaining := mem.daily_remaining }

/-- `BudgetSummary.update_monthly_spend`: `monthly_spend += amount` then `save`
persisting only the monthly columns plus the timestamp
(models.py 453-456). -/
def Summary.update_monthly_spend (b : Brand) (s : Summary) (amount : Int) : Summary :=
  let mem := Summary.save_mem b { s with monthly_spend := s.monthly_spend + amount }
  { s with monthly_spend := mem.monthly_spend, monthly_remaining := mem.monthly_remaining }

/-- `BudgetSummary.reset_daily_spend`: `daily_spend = 0` then `save` with
daily update_fields (models.py 458-461). -/
def Summary.reset_daily_spend (b : Brand) (s : Summary) : Summary :=
  let mem := Summary.save_mem b { s with daily_spend := 0 }
  { s with daily_spend := mem.daily_spend, daily_remaining := mem.daily_remaining }

/-- `BudgetSummary.reset_monthly_spend`: `monthly_spend = 0` then `save` with
monthly update_fields (models.py 463-466). -/
def Summary.reset_monthly_spend (b : Brand) (s : Summary) : Summary :=
  let mem := Summary.save_mem b { s with monthly_spend := 0 }
  { s with monthly_spend := mem.monthly_spend, monthly_remaining := mem.monthly_remaining }

/-- `BudgetSummary._calculate_monthly_spend`: sum of `SpendRecord.amount` for
the brand with `first_day <= spend_date <= target_date`, where
`first_day = target_date.replace(day=1)` (models.py 483-496). -/
def calculate_monthly_spend (records : List SpendRecord) (b : Brand)
    (target_date : Date) : Int :=
  let first_day : Date := { target_date with day := 1 }
  ((records.filter (fun r =>
      r.brand_id == b.id && Date.ble first_day r.spend_date
        && Date.ble r.spend_date target_date)).map (·.amount)).sum

/-- `BudgetSummary.get_or_create_for_date` (models.py 468-481): return the
existing row for `(brand, target_date)`, or create one from the defaults
(`daily_spend=0`, `monthly_spend=_calculate_monthly_spend`,
remaining = brand budgets); the insert goes through the overridden `save`,
which recomputes the remaining columns. -/
def get_or_create_for_date (st : DBState) (b : Brand) (target_date : Date) :
    Summary × DBState :=
  match st.summaries b.id target_date with
  | some s => (s, st)
  | none =>
    let mem : Summary :=
      { brand_id := b.id, date := target_date,
        daily_spend := 0,
        monthly_spend := calculate_monthly_spend st.spendRecords b target_date,
        daily_remaining := b.daily_budget,
        monthly_remaining := b.monthly_budget }
    let row := Summary.save_mem b mem
    (row, writeSummary st row)

/-- `Brand.has_budget_remaining` (models.py 131-140): `True` when no
`BudgetSummary` row exists for `(brand, check_date)`, otherwise
`daily_remaining > 0 and monthly_remaining > 0`. -/
def has_budget_remaining (st : DBState) (b : Brand) (check_date : Date) : Bool :=
  match st.summaries b.id check_date with
  | some summary => decide (summary.daily_remaining > 0 ∧ summary.monthly_remaining > 0)
  | none => true

/-- `Campaign.is_within_dayparting_window` (models.py 211-232): filter the
schedules of the campaign to the brand-local weekday with `is_active=True`; empty
filtered set means not allowed; otherwise some schedule must satisfy
`start_hour <= current_hour <= end_hour`. -/
def is_within_dayparting_window (st : DBState) (clock : Clock) (b : Brand)
    (c : Campaign) : Bool :=
  let lt := clock.localAt b.timezone
  let scheds := st.schedules.filter (fun s =>
    s.campaign_id == c.id && s.day_of_week == lt.weekday && s.is_active)
  if scheds.isEmpty then false
  else scheds.any (fun s => decide (s.start_hour ≤ lt.hour ∧ lt.hour ≤ s.end_hour))

/-- `Campaign.can_run_now` (models.py 196-209): manual switch, then brand
budget for today, then dayparting window. -/
def can_run_now (st : DBState) (clock : Clock) (b : Brand) (c : Campaign) : Bool :=
  c.is_active && has_budget_remaining st b clock.today
    && is_within_dayparting_window st clock b c

/-- `Campaign.pause_for_budget` (models.py 234-237). -/
def Campaign.pause_for_budget (st : DBState) (c : Campaign) : DBState :=
  setStatus st c.id .PAUSED_BUDGET

/-- `Campaign.pause_for_dayparting` (models.py 239-242). -/
def Campaign.pause_for_dayparting (st : DBState) (c : Campaign) : DBState :=
  setStatus st c.id .PAUSED_DAYPART

/-- `Campaign.activate` (models.py 244-248): write `ACTIVE` only when
`can_run_now()` holds; otherwise do nothing. -/
def Campaign.activate (st : DBState) (clock : Clock) (b : Brand) (c : Campaign) :
    DBState :=
  if can_run_now st clock b c then setStatus st c.id .ACTIVE else st

/-- Per-campaign body of the hourly dayparting sweep
(`check_campaign_dayparting`, tasks.py 24-38). `c` is the snapshot row from
the queryset; budget/schedule checks read the live database state. -/
def check_campaign_dayparting_step (clock : Clock) (st : DBState) (c : Campaign) :
    DBState :=
  match findBrand st c.brand_id with
  | none => st
  | some b =>
    if is_within_dayparting_window st clock b c then
      if c.status = .PAUSED_DAYPART then
        if has_budget_remaining st b clock.today then Campaign.activate st clock b c
        else st
      else st
    else
      if c.status = .ACTIVE then Campaign.pause_for_dayparting st c else st

/-- `check_campaign_dayparting` (tasks.py 14-44): iterate all campaigns with
`is_active=True`. -/
def check_campaign_dayparting (clock : Clock) (st : DBState) : DBState :=
  (st.campaigns.filter (·.is_active)).foldl (check_campaign_dayparting_step clock) st

/-- Per-campaign body of the 5-minute budget sweep (`update_campaign_status`,
tasks.py 61-75). -/
def update_campaign_status_step (clock : Clock) (st : DBState) (c : Campaign) :
    DBState :=
  match findBrand st c.brand_id with
  | none => st
  | some b =>
    let has_budget := has_budget_remaining st b clock.today
    if has_budget = false ∧ c.status = .ACTIVE then
      Campaign.pause_for_budget st c
    else if has_budget = true ∧ c.status = .PAUSED_BUDGET then
      if is_within_dayparting_window st clock b c then Campaign.activate st clock b c
      else st
    else st

/-- `update_campaign_status` (tasks.py 47-81): iterate campaigns with
`is_active=True` and status ACTIVE or PAUSED_BUDGET. -/
def update_campaign_status (clock : Clock) (st : DBState) : DBState :=
  (st.campaigns.filter (fun c =>
      c.is_active && (c.status == .ACTIVE || c.status == .PAUSED_BUDGET))).foldl
    (update_campaign_status_step clock) st

/-- Per-brand body of the daily reset (`reset_daily_budgets`, tasks.py
97-117): get-or-create the summary for today; only when the observed
`daily_spend > 0`, reset it and then try to reactivate the `is_active` campaigns of this brand
 with status `PAUSED_BUDGET`. -/
def reset_daily_budgets_brand (clock : Clock) (st : DBState) (b : Brand) : DBState :=
  let p := get_or_create_for_date st b clock.today
  let summary := p.1
  let st1 := p.2
  if summary.daily_spend > 0 then
    let st2 := writeSummary st1 (Summary.reset_daily_spend b summary)
    let paused := st2.campaigns.filter (fun c =>
      c.brand_id == b.id && c.is_active && c.status == .PAUSED_BUDGET)
    paused.foldl (fun s c =>
      if can_run_now s clock b c then Campaign.activate s clock b c else s) st2
  else st1

/-- `reset_daily_budgets` (tasks.py 84-124): iterate brands with
`is_active=True`. -/
def reset_daily_budgets (clock : Clock) (st : DBState) : DBState :=
  (st.brands.filter (·.is_active)).foldl (reset_daily_budgets_brand clock) st

/-- Per-brand body of the monthly reset (`reset_monthly_budgets`, tasks.py
140-160); same shape as the daily one but on `monthly_spend`. -/
def reset_monthly_budgets_brand (clock : Clock) (st : DBState) (b : Brand) : DBState :=
  let p := get_or_create_for_date st b clock.today
  let summary := p.1
  let st1 := p.2
  if summary.monthly_spend > 0 then
    let st2 := writeSummary st1 (Summary.reset_monthly_spend b summary)
    let paused := st2.campaigns.filter (fun c =>
      c.brand_id == b.id && c.is_active && c.status == .PAUSED_BUDGET)
    paused.foldl (fun s c =>
      if can_run_now s clock b c then Campaign.activate s clock b c else s) st2
  else st1

/-- `reset_monthly_budgets` (tasks.py 127-167). -/
def reset_monthly_budgets (clock : Clock) (st : DBState) : DBState :=
  (st.brands.filter (·.is_active)).foldl (reset_monthly_budgets_brand clock) st

/-- Result payload of the `record_spend` task (tasks.py 228-234; the
not-found early return at 198-203 yields `success=False`). -/
structure RecordSpendResult where
  success : Bool
  daily_remaining : Int
  monthly_remaining : Int
  campaign_paused : Bool
deriving DecidableEq, Repr

/-- The `record_spend` Celery task (tasks.py 170-238): resolve active brand
and campaign (else a not-found failure result); append the `SpendRecord`;
get-or-create the summary for the spend date; `update_daily_spend` then
`update_monthly_spend`; pause the campaign when a remaining column is `<= 0`
and the campaign is currently `ACTIVE`. There is no amount validation in the
task. `spend_date` is the date of the given/parsed spend datetime. -/
def record_spend (st : DBState) (brand_id campaign_id : Nat) (amount : Int)
    (spend_date : Date) : RecordSpendResult × DBState :=
  match st.brands.find? (fun b => b.id == brand_id && b.is_active) with
  | none => ({ success := false, daily_remaining := 0, monthly_remaining := 0,
               campaign_paused := false }, st)
  | some brand =>
    match st.campaigns.find? (fun c =>
        c.id == campaign_id && c.brand_id == brand.id && c.is_active) with
    | none => ({ success := false, daily_remaining := 0, monthly_remaining := 0,
                 campaign_paused := false }, st)
    | some campaign =>
      let st1 := { st with spendRecords := st.spendRecords ++
        [{ brand_id := brand.id, campaign_id := campaign.id,
           amount := amount, spend_date := spend_date }] }
      let p := get_or_create_for_date st1 brand spend_date
      let s0 := p.1
      let st2 := p.2
      let s1 := Summary.update_daily_spend brand s0 amount
      let st3 := writeSummary st2 s1
      let s2 := Summary.update_monthly_spend brand s1 amount
      let st4 := writeSummary st3 s2
      let pauseNeeded :=
        decide ((s2.daily_remaining ≤ 0 ∨ s2.monthly_remaining ≤ 0)
          ∧ campaign.status = .ACTIVE)
      let st5 := if pauseNeeded then Campaign.pause_for_budget st4 campaign else st4
      let finalStatus := if pauseNeeded then CStatus.PAUSED_BUDGET else campaign.status
      ({ success := true,
         daily_remaining := s2.daily_remaining,
         monthly_remaining := s2.monthly_remaining,
         campaign_paused := decide (finalStatus ≠ .ACTIVE) }, st5)

/-- `POST /api/campaigns/{id}/toggle/` body action. -/
inductive ToggleAction where
  | doActivate
  | doDeactivate
deriving DecidableEq, Repr

/-- HTTP-ish response of the toggle endpoint: status code and reported new
campaign status, if any. -/
structure ToggleResponse where
  status_code : Nat
  new_status : Option CStatus
deriving DecidableEq, Repr

/-- `CampaignToggleView.post` (views.py 143-194): look up the campaign with
`is_active=True` (404 otherwise); `activate` only if `can_run_now()` (400
otherwise), `deactivate` writes `INACTIVE` unconditionally. The brand is the
FK row of the campaign (select_related); a dangling FK cannot occur in
the database and is mapped to a 500-style response with no write. -/
def campaign_toggle_post (clock : Clock) (st : DBState) (campaign_id : Nat)
    (action : ToggleAction) : ToggleResponse × DBState :=
  match st.campaigns.find? (fun c => c.id == campaign_id && c.is_active) with
  | none => ({ status_code := 404, new_status := none }, st)
  | some campaign =>
    match action with
    | .doActivate =>
      match findBrand st campaign.brand_id with
      | none => ({ status_code := 500, new_status := none }, st)
      | some b =>
        if can_run_now st clock b campaign then
          ({ status_code := 200, new_status := some .ACTIVE },
           Campaign.activate st clock b campaign)
        else ({ status_code := 400, new_status := none }, st)
    | .doDeactivate =>
      ({ status_code := 200, new_status := some .INACTIVE },
       setStatus st campaign_id .INACTIVE)

/-- Parsed JSON body of `POST /api/spend/` (fields may be missing). -/
structure SpendPostBody where
  brand_id : Option Nat
  campaign_id : Option Nat
  amount : Option Int
  spend_datetime : Option String

/-- Arguments of a queued `record_spend.delay(...)` call. -/
structure TaskCall where
  brand_id : Nat
  campaign_id : Nat
  amount : Int
  spend_datetime : Option String
deriving DecidableEq

/-- HTTP-ish response of the spend endpoint. -/
structure ViewResponse where
  status_code : Nat
  success : Bool
deriving DecidableEq, Repr

/-- `RecordSpendView.post` (views.py 20-65): reject a missing required field
with 400; reject `amount <= 0` with 400 (Amount must be greater than 0);
otherwise queue the `record_spend` task. Returns the response and the queued
task call, if any. -/
def record_spend_view_post (body : SpendPostBody) : ViewResponse × Option TaskCall :=
  match body.brand_id, body.campaign_id, body.amount with
  | some bid, some cid, some amt =>
    if amt ≤ 0 then ({ status_code := 400, success := false }, none)
    else ({ status_code := 200, success := true },
          some { brand_id := bid, campaign_id := cid, amount := amt,
                 spend_datetime := body.spend_datetime })
  | _, _, _ => ({ status_code := 400, success := false }, none)

/-! ## Well-formedness predicates and invariants -/

/-- Primary-key uniqueness of the brand table. -/
def WFbrands (st : DBState) : Prop := (st.brands.map (·.id)).Nodup

/-- Primary-key uniqueness of the campaign table. -/
def WFcampaigns (st : DBState) : Prop := (st.campaigns.map (·.id)).Nodup

/-- Every stored summary row carries the key it is stored under (true of a
relational row, where the columns are the key). -/
def KeyedOK (st : DBState) : Prop :=
  ∀ bid d s, st.summaries bid d = some s → s.brand_id = bid ∧ s.date = d

/-- The budget-consistency invariant of claim C2: every stored summary row of
a brand satisfies `remaining + spend = budget` on both periods. -/
def SummInv (st : DBState) : Prop :=
  ∀ bid d s b, st.summaries bid d = some s → findBrand st bid = some b →
    s.daily_remaining + s.daily_spend = b.daily_budget ∧
    s.monthly_remaining + s.monthly_spend = b.monthly_budget

/-- Two states that agree on everything except campaign rows (used for
status-only writes). -/
def sameNonCampaign (st st' : DBState) : Prop :=
  st'.brands = st.brands ∧ st'.schedules = st.schedules ∧
  st'.spendRecords = st.spendRecords ∧ st'.summaries = st.summaries

/-- `can_run_now` for the campaign row with id `cid`, resolving the campaign
and its brand from the state (false if either row is missing). -/
def can_run_now_id (clock : Clock) (st : DBState) (cid : Nat) : Bool :=
  match findCampaign st cid with
  | none => false
  | some c =>
    match findBrand st c.brand_id with
    | none => false
    | some b => can_run_now st clock b c

/-- The `daily_spend` the daily-reset sweep observes for a brand on a date:
the stored value if a row exists, else the 0 of the row it would create. -/
def observed_daily (st : DBState) (b : Brand) (d : Date) : Int :=
  match st.summaries b.id d with
  | some s => s.daily_spend
  | none => 0

/-! ## Concrete states used by witnesses and counterexamples -/

/-- A brand with daily budget 100.00 and monthly budget 1000.00 (cents). -/
def wBrand : Brand :=
  { id := 1, name := "B", daily_budget := 10000, monthly_budget := 100000,
    timezone := "UTC", is_active := true }

/-- A clock: today 2026-10-12, every timezone currently Monday 09:00. -/
def wClock : Clock := { today := ⟨2026, 10, 12⟩, localAt := fun _ => ⟨0, 9⟩ }

/-- A manually-enabled campaign of `wBrand`, paused for budget. -/
def wCampaign : Campaign :=
  { id := 7, brand_id := 1, name := "C", status := .PAUSED_BUDGET, is_active := true }

/-- A Monday 00-23 schedule for `wCampaign`. -/
def wSchedule : DaypartingSchedule :=
  { campaign_id := 7, day_of_week := 0, start_hour := 0, end_hour := 23,
    is_active := true }

/-- Base state: one brand, one campaign, one schedule, no records/summaries. -/
def wState : DBState :=
  { brands := [wBrand], campaigns := [wCampaign], schedules := [wSchedule],
    spendRecords := [], summaries := fun _ _ => none }

/-- Like `wState` but with no dayparting schedules at all. -/
def wStateEmptySched : DBState :=
  { brands := [wBrand], campaigns := [wCampaign], schedules := [],
    spendRecords := [], summaries := fun _ _ => none }

/-- Like `wState` plus a pre-existing 50.00 spend record earlier in the month
and no summary row. -/
def wState5 : DBState :=
  { brands := [wBrand], campaigns := [wCampaign], schedules := [wSchedule],
    spendRecords := [{ brand_id := 1, campaign_id := 7, amount := 5000,
                       spend_date := ⟨2026, 10, 5⟩ }],
    summaries := fun _ _ => none }

/-- A summary row for `wBrand` on 2026-10-12 with zero spend. -/
def wSum6 : Summary :=
  { brand_id := 1, date := ⟨2026, 10, 12⟩, daily_spend := 0, monthly_spend := 0,
    daily_remaining := 10000, monthly_remaining := 100000 }

/-- Like `wState` but with the zero-spend summary `wSum6` already stored for
today. -/
def wState6 : DBState :=
  { brands := [wBrand], campaigns := [wCampaign], schedules := [wSchedule],
    spendRecords := [],
    summaries := fun bid d =>
      if bid = 1 ∧ d = (⟨2026, 10, 12⟩ : Date) then some wSum6 else none }

/-- Like `wState` but with a 1500.00 spend record this month (exceeding the
1000.00 monthly budget) and still no summary row. -/
def wState10 : DBState :=
  { brands := [wBrand], campaigns := [wCampaign], schedules := [wSchedule],
    spendRecords := [{ brand_id := 1, campaign_id := 7, amount := 150000,
                       spend_date := ⟨2026, 10, 5⟩ }],
    summaries := fun _ _ => none }

/-! ## Helper lemmas -/

theorem find_key_unique {α : Type} (key : α → Nat) :
    ∀ (l : List α), (l.map key).Nodup → ∀ a ∈ l,
      l.find? (fun x => key x == key a) = some a := by
  intro l
  induction l with
  | nil => intro _ a ha; cases ha
  | cons h t ih =>
    intro hnd a ha
    have hnd' : key h ∉ t.map key ∧ (t.map key).Nodup := by
      rw [List.map_cons] at hnd
      exact List.nodup_cons.mp hnd
    rcases List.mem_cons.mp ha with rfl | hat
    · exact List.find?_cons_of_pos _ (by simp)
    · have hne : ¬ ((fun x => key x == key a) h = true) := by
        simp only [beq_iff_eq]
        intro he
        exact hnd'.1 (he ▸ List.mem_map_of_mem key hat)
      exact (List.find?_cons_of_neg t hne).trans (ih hnd'.2 a hat)

theorem findBrand_self (st : DBState) (hnd : WFbrands st) (b : Brand)
    (hb : b ∈ st.brands) : findBrand st b.id = some b :=
  find_key_unique (fun x : Brand => x.id) st.brands hnd b hb

theorem sameNonCampaign_refl (st : DBState) : sameNonCampaign st st :=
  ⟨rfl, rfl, rfl, rfl⟩

theorem sameNonCampaign_trans {s1 s2 s3 : DBState} (h1 : sameNonCampaign s1 s2)
    (h2 : sameNonCampaign s2 s3) : sameNonCampaign s1 s3 :=
  ⟨h2.1.trans h1.1, h2.2.1.trans h1.2.1, h2.2.2.1.trans h1.2.2.1,
   h2.2.2.2.trans h1.2.2.2⟩

theorem sameNonCampaign_activate (st : DBState) (clock : Clock) (b : Brand)
    (c : Campaign) : sameNonCampaign st (Campaign.activate st clock b c) := by
  unfold Campaign.activate
  split
  · exact ⟨rfl, rfl, rfl, rfl⟩
  · exact sameNonCampaign_refl st

theorem foldl_sameNonCampaign {α : Type} (step : DBState → α → DBState)
    (h : ∀ s a, sameNonCampaign s (step s a)) :
    ∀ (l : List α) (s : DBState), sameNonCampaign s (List.foldl step s l) := by
  intro l
  induction l with
  | nil => intro s; exact sameNonCampaign_refl s
  | cons a t ih => intro s; exact sameNonCampaign_trans (h s a) (ih (step s a))

theorem SummInv_of_same {st st' : DBState} (h : sameNonCampaign st st')
    (hi : SummInv st) : SummInv st' := by
  intro bid d s b hs hb
  rw [h.2.2.2] at hs
  have hb' : findBrand st bid = some b := by
    unfold findBrand at hb ⊢
    rw [h.1] at hb
    exact hb
  exact hi bid d s b hs hb'

theorem KeyedOK_of_same {st st' : DBState} (h : sameNonCampaign st st')
    (hk : KeyedOK st) : KeyedOK st' := by
  intro bid d s hs
  rw [h.2.2.2] at hs
  exact hk bid d s hs

theorem KeyedOK_write (st : DBState) (s : Summary) (hk : KeyedOK st) :
    KeyedOK (writeSummary st s) := by
  intro bid d s' hs'
  simp only [writeSummary] at hs'
  split at hs'
  · rename_i hc
    cases hs'
    exact ⟨hc.1.symm, hc.2.symm⟩
  · exact hk bid d s' hs'

theorem SummInv_write (st : DBState) (s : Summary) (hi : SummInv st)
    (hrow : ∀ b, findBrand st s.brand_id = some b →
      s.daily_remaining + s.daily_spend = b.daily_budget ∧
      s.monthly_remaining + s.monthly_spend = b.monthly_budget) :
    SummInv (writeSummary st s) := by
  intro bid d s' b hs' hb
  have hb' : findBrand st bid = some b := hb
  simp only [writeSummary] at hs'
  split at hs'
  · rename_i hc
    cases hs'
    exact hrow b (hc.1 ▸ hb')
  · exact hi bid d s' b hs' hb'

theorem get_or_create_frame (st : DBState) (b : Brand) (d : Date) :
    (get_or_create_for_date st b d).2.brands = st.brands ∧
    (get_or_create_for_date st b d).2.campaigns = st.campaigns ∧
    (get_or_create_for_date st b d).2.schedules = st.schedules ∧
    (get_or_create_for_date st b d).2.spendRecords = st.spendRecords := by
  unfold get_or_create_for_date
  cases h : st.summaries b.id d
  · exact ⟨rfl, rfl, rfl, rfl⟩
  · exact ⟨rfl, rfl, rfl, rfl⟩

theorem get_or_create_keyed (st : DBState) (b : Brand) (d : Date)
    (hk : KeyedOK st) : KeyedOK (get_or_create_for_date st b d).2 := by
  unfold get_or_create_for_date
  cases h : st.summaries b.id d
  · exact KeyedOK_write st _ hk
  · exact hk

theorem get_or_create_key (st : DBState) (b : Brand) (d : Date)
    (hk : KeyedOK st) :
    (get_or_create_for_date st b d).1.brand_id = b.id ∧
    (get_or_create_for_date st b d).1.date = d := by
  unfold get_or_create_for_date
  cases h : st.summaries b.id d with
  | none => exact ⟨rfl, rfl⟩
  | some s => exact hk b.id d s h

theorem get_or_create_inv (st : DBState) (b : Brand) (d : Date)
    (hnd : WFbrands st) (hmem : b ∈ st.brands) (hi : SummInv st) :
    SummInv (get_or_create_for_date st b d).2 ∧
    ((get_or_create_for_date st b d).1.daily_remaining +
        (get_or_create_for_date st b d).1.daily_spend = b.daily_budget ∧
     (get_or_create_for_date st b d).1.monthly_remaining +
        (get_or_create_for_date st b d).1.monthly_spend = b.monthly_budget) := by
  have hfb : findBrand st b.id = some b := findBrand_self st hnd b hmem
  unfold get_or_create_for_date
  cases h : st.summaries b.id d with
  | some s => exact ⟨hi, hi b.id d s b h hfb⟩
  | none =>
    constructor
    · apply SummInv_write st _ hi
      intro b' hb'
      have hbb : b' = b := by
        have : findBrand st b.id = some b' := hb'
        rw [hfb] at this
        exact (Option.some.inj this).symm
      subst hbb
      constructor <;> simp [Summary.save_mem]
    · constructor <;> simp [Summary.save_mem]

theorem check_step_same (clock : Clock) (s : DBState) (c : Campaign) :
    sameNonCampaign s (check_campaign_dayparting_step clock s c) := by
  unfold check_campaign_dayparting_step
  cases h : findBrand s c.brand_id with
  | none => exact sameNonCampaign_refl s
  | some b =>
    dsimp only
    split_ifs
    all_goals first
      | exact sameNonCampaign_refl s
      | exact sameNonCampaign_activate s clock b c

theorem update_step_same (clock : Clock) (s : DBState) (c : Campaign) :
    sameNonCampaign s (update_campaign_status_step clock s c) := by
  unfold update_campaign_status_step
  cases h : findBrand s c.brand_id with
  | none => exact sameNonCampaign_refl s
  | some b =>
    dsimp only
    split_ifs
    all_goals first
      | exact sameNonCampaign_refl s
      | exact sameNonCampaign_activate s clock b c

theorem inner_step_same (clock : Clock) (b : Brand) (s : DBState) (c : Campaign) :
    sameNonCampaign s
      (if can_run_now s clock b c then Campaign.activate s clock b c else s) := by
  split
  · exact sameNonCampaign_activate s clock b c
  · exact sameNonCampaign_refl s

theorem reset_daily_brand_preserves (clock : Clock) (s : DBState) (b : Brand)
    (hmem : b ∈ s.brands) (hnd : WFbrands s) (hk : KeyedOK s) (hi : SummInv s) :
    (reset_daily_budgets_brand clock s b).brands = s.brands ∧
    KeyedOK (reset_daily_budgets_brand clock s b) ∧
    SummInv (reset_daily_budgets_brand clock s b) := by
  have hfb : findBrand s b.id = some b := findBrand_self s hnd b hmem
  have hfr := get_or_create_frame s b clock.today
  have hkey := get_or_create_key s b clock.today hk
  obtain ⟨hi1, hrow⟩ := get_or_create_inv s b clock.today hnd hmem hi
  have hk1 := get_or_create_keyed s b clock.today hk
  unfold reset_daily_budgets_brand
  dsimp only
  split
  · -- daily_spend > 0: reset row write, then status-only inner fold
    set st1 := (get_or_create_for_date s b clock.today).2 with hst1
    set row := Summary.reset_daily_spend b (get_or_create_for_date s b clock.today).1
      with hrowdef
    have hi2 : SummInv (writeSummary st1 row) := by
      apply SummInv_write st1 row hi1
      intro b' hb'
      have hb'' : b' = b := by
        have h1 : findBrand st1 row.brand_id = findBrand s b.id := by
          unfold findBrand
          rw [hfr.1, hrowdef]
          simp only [Summary.reset_daily_spend, Summary.save_mem]
          rw [hkey.1]
        rw [h1, hfb] at hb'
        exact (Option.some.inj hb').symm
      subst hb''
      constructor
      · simp [hrowdef, Summary.reset_daily_spend, Summary.save_mem]
      · have := hrow.2
        simp only [hrowdef, Summary.reset_daily_spend, Summary.save_mem]
        exact this
    have hk2 : KeyedOK (writeSummary st1 row) := KeyedOK_write st1 row hk1
    have hsame := foldl_sameNonCampaign
      (fun s' c => if can_run_now s' clock b c then Campaign.activate s' clock b c else s')
      (inner_step_same clock b)
      ((writeSummary st1 row).campaigns.filter
        (fun c => c.brand_id == b.id && c.is_active && c.status == CStatus.PAUSED_BUDGET))
      (writeSummary st1 row)
    refine ⟨?_, KeyedOK_of_same hsame hk2, SummInv_of_same hsame hi2⟩
    rw [hsame.1]
    exact hfr.1
  · exact ⟨hfr.1, hk1, hi1⟩

theorem reset_monthly_brand_preserves (clock : Clock) (s : DBState) (b : Brand)
    (hmem : b ∈ s.brands) (hnd : WFbrands s) (hk : KeyedOK s) (hi : SummInv s) :
    (reset_monthly_budgets_brand clock s b).brands = s.brands ∧
    KeyedOK (reset_monthly_budgets_brand clock s b) ∧
    SummInv (reset_monthly_budgets_brand clock s b) := by
  have hfb : findBrand s b.id = some b := findBrand_self s hnd b hmem
  have hfr := get_or_create_frame s b clock.today
  have hkey := get_or_create_key s b clock.today hk
  obtain ⟨hi1, hrow⟩ := get_or_create_inv s b clock.today hnd hmem hi
  have hk1 := get_or_create_keyed s b clock.today hk
  unfold reset_monthly_budgets_brand
  dsimp only
  split
  · set st1 := (get_or_create_for_date s b clock.today).2 with hst1
    set row := Summary.reset_monthly_spend b (get_or_create_for_date s b clock.today).1
      with hrowdef
    have hi2 : SummInv (writeSummary st1 row) := by
      apply SummInv_write st1 row hi1
      intro b' hb'
      have hb'' : b' = b := by
        have h1 : findBrand st1 row.brand_id = findBrand s b.id := by
          unfold findBrand
          rw [hfr.1, hrowdef]
          simp only [Summary.reset_monthly_spend, Summary.save_mem]
          rw [hkey.1]
        rw [h1, hfb] at hb'
        exact (Option.some.inj hb').symm
      subst hb''
      constructor
      · have := hrow.1
        simp only [hrowdef, Summary.reset_monthly_spend, Summary.save_mem]
        exact this
      · simp [hrowdef, Summary.reset_monthly_spend, Summary.save_mem]
    have hk2 : KeyedOK (writeSummary st1 row) := KeyedOK_write st1 row hk1
    have hsame := foldl_sameNonCampaign
      (fun s' c => if can_run_now s' clock b c then Campaign.activate s' clock b c else s')
      (inner_step_same clock b)
      ((writeSummary st1 row).campaigns.filter
        (fun c => c.brand_id == b.id && c.is_active && c.status == CStatus.PAUSED_BUDGET))
      (writeSummary st1 row)
    refine ⟨?_, KeyedOK_of_same hsame hk2, SummInv_of_same hsame hi2⟩
    rw [hsame.1]
    exact hfr.1
  · exact ⟨hfr.1, hk1, hi1⟩

theorem foldl_brand_inv {P : DBState → Prop} (step : DBState → Brand → DBState)
    (l : List Brand)
    (h : ∀ s b, b ∈ l → P s → P (step s b)) :
    ∀ s, P s → P (List.foldl step s l) := by
  induction l with
  | nil => intro s hs; exact hs
  | cons a t ih =>
    intro s hs
    exact ih (fun s' b hb hP => h s' b (List.mem_cons_of_mem a hb) hP)
      (step s a) (h s a (List.mem_cons_self a t) hs)

theorem reset_daily_budgets_inv (clock : Clock) (st : DBState)
    (hnd : WFbrands st) (hk : KeyedOK st) (hi : SummInv st) :
    (reset_daily_budgets clock st).brands = st.brands ∧
    KeyedOK (reset_daily_budgets clock st) ∧
    SummInv (reset_daily_budgets clock st) := by
  unfold reset_daily_budgets
  refine foldl_brand_inv (P := fun s =>
      s.brands = st.brands ∧ KeyedOK s ∧ SummInv s)
    (reset_daily_budgets_brand clock) _ ?_ st ⟨rfl, hk, hi⟩
  intro s b hb ⟨hbr, hks, his⟩
  have hmem : b ∈ s.brands := by
    rw [hbr]
    exact List.mem_of_mem_filter hb
  have hnds : WFbrands s := by
    unfold WFbrands
    rw [hbr]
    exact hnd
  obtain ⟨h1, h2, h3⟩ := reset_daily_brand_preserves clock s b hmem hnds hks his
  exact ⟨h1.trans hbr, h2, h3⟩

theorem reset_monthly_budgets_inv (clock : Clock) (st : DBState)
    (hnd : WFbrands st) (hk : KeyedOK st) (hi : SummInv st) :
    (reset_monthly_budgets clock st).brands = st.brands ∧
    KeyedOK (reset_monthly_budgets clock st) ∧
    SummInv (reset_monthly_budgets clock st) := by
  unfold reset_monthly_budgets
  refine foldl_brand_inv (P := fun s =>
      s.brands = st.brands ∧ KeyedOK s ∧ SummInv s)
    (reset_monthly_budgets_brand clock) _ ?_ st ⟨rfl, hk, hi⟩
  intro s b hb ⟨hbr, hks, his⟩
  have hmem : b ∈ s.brands := by
    rw [hbr]
    exact List.mem_of_mem_filter hb
  have hnds : WFbrands s := by
    unfold WFbrands
    rw [hbr]
    exact hnd
  obtain ⟨h1, h2, h3⟩ := reset_monthly_brand_preserves clock s b hmem hnds hks his
  exact ⟨h1.trans hbr, h2, h3⟩

theorem toggle_same (clock : Clock) (st : DBState) (cid : Nat)
    (act : ToggleAction) :
    sameNonCampaign st (campaign_toggle_post clock st cid act).2 := by
  unfold campaign_toggle_post
  cases h : st.campaigns.find? (fun c => c.id == cid && c.is_active) with
  | none => exact sameNonCampaign_refl st
  | some campaign =>
    cases act with
    | doActivate =>
      dsimp only
      cases h2 : findBrand st campaign.brand_id with
      | none => exact sameNonCampaign_refl st
      | some b =>
        dsimp only
        split
        · exact sameNonCampaign_activate st clock b campaign
        · exact sameNonCampaign_refl st
    | doDeactivate => exact ⟨rfl, rfl, rfl, rfl⟩

theorem record_spend_inv (st : DBState) (bid cid : Nat) (amt : Int) (d : Date)
    (hnd : WFbrands st) (hk : KeyedOK st) (hi : SummInv st) :
    SummInv (record_spend st bid cid amt d).2 := by
  unfold record_spend
  cases hb : st.brands.find? (fun b => b.id == bid && b.is_active) with
  | none => exact hi
  | some brand =>
    dsimp only
    cases hc : st.campaigns.find? (fun c =>
        c.id == cid && c.brand_id == brand.id && c.is_active) with
    | none => exact hi
    | some campaign =>
      dsimp only
      have hbmem : brand ∈ st.brands := List.mem_of_find?_eq_some hb
      -- st1 only appends a spend record, so the summary invariant carries over
      set st1 : DBState := { st with spendRecords := st.spendRecords ++
        [{ brand_id := brand.id, campaign_id := campaign.id,
           amount := amt, spend_date := d }] } with hst1
      have hnd1 : WFbrands st1 := hnd
      have hk1 : KeyedOK st1 := hk
      have hi1 : SummInv st1 := hi
      have hmem1 : brand ∈ st1.brands := hbmem
      obtain ⟨hi2, hrow0⟩ := get_or_create_inv st1 brand d hnd1 hmem1 hi1
      have hkey0 := get_or_create_key st1 brand d hk1
      have hfr := get_or_create_frame st1 brand d
      set st2 := (get_or_create_for_date st1 brand d).2 with hst2
      set s0 := (get_or_create_for_date st1 brand d).1 with hs0
      have hfb2 : findBrand st2 brand.id = some brand := by
        unfold findBrand
        rw [hfr.1]
        exact findBrand_self st1 hnd1 brand hmem1
      -- first write: update_daily_spend
      set s1 := Summary.update_daily_spend brand s0 amt with hs1def
      have hs1key : s1.brand_id = brand.id ∧ s1.date = d := by
        rw [hs1def]
        simp only [Summary.update_daily_spend, Summary.save_mem]
        exact hkey0
      have hi3 : SummInv (writeSummary st2 s1) := by
        apply SummInv_write st2 s1 hi2
        intro b' hb'
        have hbb : b' = brand := by
          rw [hs1key.1, hfb2] at hb'
          exact (Option.some.inj hb').symm
        rw [hbb]
        constructor
        · simp [hs1def, Summary.update_daily_spend, Summary.save_mem]
        · have := hrow0.2
          simp only [hs1def, Summary.update_daily_spend, Summary.save_mem]
          exact this
      have hfb3 : findBrand (writeSummary st2 s1) brand.id = some brand := hfb2
      -- second write: update_monthly_spend
      set s2 := Summary.update_monthly_spend brand s1 amt with hs2def
      have hi4 : SummInv (writeSummary (writeSummary st2 s1) s2) := by
        apply SummInv_write _ s2 hi3
        intro b' hb'
        have hbb : b' = brand := by
          have hkk : s2.brand_id = brand.id := by
            rw [hs2def]
            simp only [Summary.update_monthly_spend, Summary.save_mem]
            exact hs1key.1
          rw [hkk, hfb3] at hb'
          exact (Option.some.inj hb').symm
        rw [hbb]
        constructor
        · have hd1 : s1.daily_remaining + s1.daily_spend = brand.daily_budget := by
            simp [hs1def, Summary.update_daily_spend, Summary.save_mem]
          simp only [hs2def, Summary.update_monthly_spend, Summary.save_mem]
          exact hd1
        · simp [hs2def, Summary.update_monthly_spend, Summary.save_mem]
      -- final optional pause is a status-only write
      split
      · exact SummInv_of_same ⟨rfl, rfl, rfl, rfl⟩ hi4
      · exact hi4

/-! ## Claim theorems -/

/-- Claim C1 (corrected). The `record_spend` Celery task itself performs no
amount validation; the `amount > 0` check lives in the HTTP endpoint (and the
CLI command), which rejects `amount <= 0` with a 400 response and queues no
task, so nothing is recorded on that path. This theorem states the amended
claim for the endpoint: whenever the posted amount is `<= 0`, the view
returns a 400 failure response and dispatches no `record_spend` task. -/
theorem c1_theorem (body : SpendPostBody) (amt : Int)
    (hamt : body.amount = some amt) (hle : amt ≤ 0) :
    record_spend_view_post body = ({ status_code := 400, success := false }, none) := by
  unfold record_spend_view_post
  rw [hamt]
  cases body.brand_id <;> cases body.campaign_id <;> simp [hle]

/-- Witness for C1: the concrete request body (brand 1, campaign 7,
amount -5.00) is rejected with 400 and no task call. -/
theorem c1_witness :
    record_spend_view_post
        { brand_id := some 1, campaign_id := some 7, amount := some (-500),
          spend_datetime := none } =
      ({ status_code := 400, success := false }, none) :=
  c1_theorem _ (-500) rfl (by decide)

/-- Counterexample for C1 as stated: invoking the `record_spend` task
directly with `amount = -5.00` does not fail with a validation error — it
returns a success payload, creates a `SpendRecord`, and changes the
`BudgetSummary` fields (daily_spend becomes -500 cents). -/
theorem c1_counterexample :
    (record_spend wState 1 7 (-500) ⟨2026, 10, 12⟩).1.success = true ∧
    (record_spend wState 1 7 (-500) ⟨2026, 10, 12⟩).2.spendRecords =
      [{ brand_id := 1, campaign_id := 7, amount := -500,
         spend_date := ⟨2026, 10, 12⟩ }] ∧
    ((record_spend wState 1 7 (-500) ⟨2026, 10, 12⟩).2.summaries 1
        ⟨2026, 10, 12⟩).map (·.daily_spend) = some (-500) := by
  refine ⟨?_, ?_, ?_⟩ <;> decide

/-- Claim C2 (confirmed). Starting from any state whose brand table has
unique ids, whose summary rows sit under their own key, and whose stored
summaries already satisfy `remaining + spend = budget` on both periods, every
summary-writing operation of the system — summary creation, the
`record_spend` task, both reset sweeps, both status sweeps and the toggle
endpoint — preserves that invariant: after the write, every stored row still
satisfies `daily_remaining + daily_spend = daily_budget` and
`monthly_remaining + monthly_spend = monthly_budget` of its brand. -/
theorem c2_theorem (st : DBState) (hnd : WFbrands st) (hk : KeyedOK st)
    (hi : SummInv st) :
    (∀ b ∈ st.brands, ∀ d, SummInv (get_or_create_for_date st b d).2) ∧
    (∀ bid cid amt d, SummInv (record_spend st bid cid amt d).2) ∧
    (∀ clock, SummInv (reset_daily_budgets clock st)) ∧
    (∀ clock, SummInv (reset_monthly_budgets clock st)) ∧
    (∀ clock, SummInv (check_campaign_dayparting clock st)) ∧
    (∀ clock, SummInv (update_campaign_status clock st)) ∧
    (∀ clock cid act, SummInv (campaign_toggle_post clock st cid act).2) := by
  refine ⟨?_, ?_, ?_, ?_, ?_, ?_, ?_⟩
  · intro b hb d
    exact (get_or_create_inv st b d hnd hb hi).1
  · intro bid cid amt d
    exact record_spend_inv st bid cid amt d hnd hk hi
  · intro clock
    exact (reset_daily_budgets_inv clock st hnd hk hi).2.2
  · intro clock
    exact (reset_monthly_budgets_inv clock st hnd hk hi).2.2
  · intro clock
    exact SummInv_of_same
      (foldl_sameNonCampaign _ (check_step_same clock) _ st) hi
  · intro clock
    exact SummInv_of_same
      (foldl_sameNonCampaign _ (update_step_same clock) _ st) hi
  · intro clock cid act
    exact SummInv_of_same (toggle_same clock st cid act) hi

/-- Witness for C2 at the concrete state `wState6` (one brand, one summary
row with zero spend): the hypotheses hold and so the conclusion follows. -/
theorem c2_witness :
    (∀ b ∈ wState6.brands, ∀ d, SummInv (get_or_create_for_date wState6 b d).2) ∧
    (∀ bid cid amt d, SummInv (record_spend wState6 bid cid amt d).2) ∧
    (∀ clock, SummInv (reset_daily_budgets clock wState6)) ∧
    (∀ clock, SummInv (reset_monthly_budgets clock wState6)) ∧
    (∀ clock, SummInv (check_campaign_dayparting clock wState6)) ∧
    (∀ clock, SummInv (update_campaign_status clock wState6)) ∧
    (∀ clock cid act, SummInv (campaign_toggle_post clock wState6 cid act).2) := by
  apply c2_theorem wState6
  · show (wState6.brands.map (·.id)).Nodup
    decide
  · intro bid d s hs
    simp only [wState6] at hs
    split at hs
    · rename_i hc
      cases hs
      exact ⟨hc.1.symm, hc.2.symm⟩
    · cases hs
  · intro bid d s b hs hb
    simp only [wState6] at hs
    split at hs
    · rename_i hc
      cases hs
      obtain ⟨h1, h2⟩ := hc
      subst h1
      subst h2
      have hbb : b = wBrand := by
        simp only [findBrand, wState6] at hb
        simp only [List.find?] at hb
        simp only [wBrand] at hb ⊢
        simp at hb
        exact hb.symm
      subst hbb
      decide
    · cases hs

/-- Claim C3 (code_bug). `BudgetSummary.update_daily_spend` is a plain
read-modify-write (`self.daily_spend += amount; self.save(...)`) with no
`select_for_update`, F-expression, or transaction, so two concurrent
`record_spend` workers that both fetch the summary row before either saves
lose one update. The first two conjuncts evaluate the model at that
failing interleaving: both workers fetch (get-or-create) the row for the
same (brand, date), then both save their increment of 60.00; the final
`daily_spend` is 60.00, not the 120.00 the claim requires. The third
conjunct shows the sequential schedule of the same two calls does give
120.00, isolating the interleaving as the cause. -/
theorem c3_theorem :
    ((let d : Date := ⟨2026, 10, 12⟩
      let fetchA := get_or_create_for_date wState wBrand d
      let fetchB := get_or_create_for_date fetchA.2 wBrand d
      let afterA := writeSummary fetchB.2 (Summary.update_daily_spend wBrand fetchA.1 6000)
      let afterB := writeSummary afterA (Summary.update_daily_spend wBrand fetchB.1 6000)
      (afterB.summaries 1 d).map (·.daily_spend)) = some 6000) ∧
    (6000 : Int) ≠ 6000 + 6000 ∧
    ((let d : Date := ⟨2026, 10, 12⟩
      let fetchA := get_or_create_for_date wState wBrand d
      let afterA := writeSummary fetchA.2 (Summary.update_daily_spend wBrand fetchA.1 6000)
      let fetchB := get_or_create_for_date afterA wBrand d
      let afterB := writeSummary fetchB.2 (Summary.update_daily_spend wBrand fetchB.1 6000)
      (afterB.summaries 1 d).map (·.daily_spend)) = some 12000) := by
  refine ⟨?_, ?_, ?_⟩ <;> decide

/-- Claim C4 (confirmed). `is_within_dayparting_window` returns true exactly
when some stored schedule of the campaign is active, matches the brand-local
weekday, and contains the brand-local hour inclusively on both ends; in
particular, with no active schedule for the current weekday it returns false
(fail-closed), and multiple schedules act as a union. -/
theorem c4_theorem (st : DBState) (clock : Clock) (b : Brand) (c : Campaign) :
    is_within_dayparting_window st clock b c = true ↔
      ∃ s, s ∈ st.schedules ∧ s.campaign_id = c.id ∧ s.is_active = true ∧
        s.day_of_week = (clock.localAt b.timezone).weekday ∧
        s.start_hour ≤ (clock.localAt b.timezone).hour ∧
        (clock.localAt b.timezone).hour ≤ s.end_hour := by
  unfold is_within_dayparting_window
  by_cases hE : (st.schedules.filter (fun s =>
      s.campaign_id == c.id
        && s.day_of_week == (clock.localAt b.timezone).weekday
        && s.is_active)).isEmpty
  · rw [if_pos hE]
    rw [List.isEmpty_iff] at hE
    constructor
    · intro hcon
      exact Bool.noConfusion hcon
    · rintro ⟨s, hmem, h1, h2, h3, h4, h5⟩
      have hs : s ∈ st.schedules.filter (fun s =>
          s.campaign_id == c.id
            && s.day_of_week == (clock.localAt b.timezone).weekday
            && s.is_active) :=
        List.mem_filter.mpr ⟨hmem, by simp [h1, h2, h3]⟩
      rw [hE] at hs
      cases hs
  · rw [if_neg hE]
    rw [List.any_eq_true]
    constructor
    · rintro ⟨s, hs, hbnd⟩
      obtain ⟨hmem, hp⟩ := List.mem_filter.mp hs
      simp only [Bool.and_eq_true, beq_iff_eq] at hp
      simp only [decide_eq_true_eq] at hbnd
      exact ⟨s, hmem, hp.1.1, hp.2, hp.1.2, hbnd.1, hbnd.2⟩
    · rintro ⟨s, hmem, h1, h2, h3, h4, h5⟩
      refine ⟨s, List.mem_filter.mpr ⟨hmem, by simp [h1, h2, h3]⟩, ?_⟩
      simp [h4, h5]

/-- Claim C5 (corrected). When no summary row exists for `(brand, date)`,
`get_or_create_for_date` creates one with `daily_spend = 0`, `monthly_spend`
equal to the exact sum of the brand spend records from the first of the month
of `date` through `date` inclusive, and `daily_remaining` equal to the daily
budget — but `monthly_remaining` equals `monthly_budget - monthly_spend`,
not the plain monthly budget, because the overridden `save` recomputes the
remaining columns from the seeded spend before the row is stored. The stored
row is the returned one. -/
theorem c5_theorem (st : DBState) (b : Brand) (d : Date)
    (habsent : st.summaries b.id d = none) :
    (get_or_create_for_date st b d).1.daily_spend = 0 ∧
    (get_or_create_for_date st b d).1.monthly_spend =
      ((st.spendRecords.filter (fun r =>
          r.brand_id == b.id && Date.ble ⟨d.year, d.month, 1⟩ r.spend_date
            && Date.ble r.spend_date d)).map (·.amount)).sum ∧
    (get_or_create_for_date st b d).1.daily_remaining = b.daily_budget ∧
    (get_or_create_for_date st b d).1.monthly_remaining =
      b.monthly_budget - (get_or_create_for_date st b d).1.monthly_spend ∧
    (get_or_create_for_date st b d).2.summaries b.id d =
      some (get_or_create_for_date st b d).1 := by
  unfold get_or_create_for_date
  rw [habsent]
  refine ⟨rfl, rfl, ?_, rfl, ?_⟩
  · simp [Summary.save_mem]
  · simp [writeSummary, Summary.save_mem]

/-- Witness for C5: applying the theorem to the concrete state `wState5`
(one 50.00 record on 2026-10-05, no summary row) for 2026-10-12. -/
theorem c5_witness :
    (get_or_create_for_date wState5 wBrand ⟨2026, 10, 12⟩).1.daily_spend = 0 ∧
    (get_or_create_for_date wState5 wBrand ⟨2026, 10, 12⟩).1.monthly_spend =
      ((wState5.spendRecords.filter (fun r =>
          r.brand_id == wBrand.id && Date.ble ⟨2026, 10, 1⟩ r.spend_date
            && Date.ble r.spend_date ⟨2026, 10, 12⟩)).map (·.amount)).sum ∧
    (get_or_create_for_date wState5 wBrand ⟨2026, 10, 12⟩).1.daily_remaining =
      wBrand.daily_budget ∧
    (get_or_create_for_date wState5 wBrand ⟨2026, 10, 12⟩).1.monthly_remaining =
      wBrand.monthly_budget -
        (get_or_create_for_date wState5 wBrand ⟨2026, 10, 12⟩).1.monthly_spend ∧
    (get_or_create_for_date wState5 wBrand ⟨2026, 10, 12⟩).2.summaries
        wBrand.id ⟨2026, 10, 12⟩ =
      some (get_or_create_for_date wState5 wBrand ⟨2026, 10, 12⟩).1 :=
  c5_theorem wState5 wBrand ⟨2026, 10, 12⟩ rfl

/-- Counterexample for C5 as stated: in `wState5` (50.00 already spent this
month, no summary row) the freshly created summary has
`monthly_remaining = 950.00`, which differs from the monthly budget 1000.00
that the claim asserts. -/
theorem c5_counterexample :
    wState5.summaries wBrand.id ⟨2026, 10, 12⟩ = none ∧
    (get_or_create_for_date wState5 wBrand ⟨2026, 10, 12⟩).1.monthly_spend = 5000 ∧
    (get_or_create_for_date wState5 wBrand ⟨2026, 10, 12⟩).1.monthly_remaining
      = 95000 ∧
    ¬ (get_or_create_for_date wState5 wBrand ⟨2026, 10, 12⟩).1.monthly_remaining
        = wBrand.monthly_budget := by
  refine ⟨?_, ?_, ?_, ?_⟩ <;> decide

/-- Claim C7 (confirmed). `has_budget_remaining` is true exactly when either
no summary row exists for the brand and date, or the stored row has both
`daily_remaining > 0` and `monthly_remaining > 0`. -/
theorem c7_theorem (st : DBState) (b : Brand) (d : Date) :
    has_budget_remaining st b d = true ↔
      st.summaries b.id d = none ∨
        ∃ s, st.summaries b.id d = some s ∧
          0 < s.daily_remaining ∧ 0 < s.monthly_remaining := by
  unfold has_budget_remaining
  cases h : st.summaries b.id d with
  | none => simp [h]
  | some s => simp [h]

/-- Claim C8 (confirmed). `Campaign.activate` is self-checking: when
`can_run_now()` is false it returns the state unchanged (no status write, no
error), and in all cases running it twice equals running it once. -/
theorem c8_theorem (st : DBState) (clock : Clock) (b : Brand) (c : Campaign) :
    (can_run_now st clock b c = false → Campaign.activate st clock b c = st) ∧
    Campaign.activate (Campaign.activate st clock b c) clock b c =
      Campaign.activate st clock b c := by
  have hsets : setStatus (setStatus st c.id .ACTIVE) c.id .ACTIVE
      = setStatus st c.id .ACTIVE := by
    unfold setStatus
    congr 1
    rw [List.map_map]
    apply List.map_congr_left
    intro a _
    by_cases h : a.id = c.id <;> simp [h]
  constructor
  · intro h
    unfold Campaign.activate
    simp [h]
  · cases h : can_run_now st clock b c with
    | false =>
      have h1 : Campaign.activate st clock b c = st := by
        unfold Campaign.activate
        simp [h]
      rw [h1]
      exact h1
    | true =>
      have h1 : Campaign.activate st clock b c = setStatus st c.id .ACTIVE := by
        unfold Campaign.activate
        simp [h]
      rw [h1]
      have h2 : can_run_now (setStatus st c.id .ACTIVE) clock b c = true := h
      unfold Campaign.activate
      simp only [h2, if_true]
      exact hsets

/-- Witness for C8: in `wStateEmptySched` (no schedules) `can_run_now` is
false, and the theorem gives that `activate` leaves the state unchanged. -/
theorem c8_witness :
    can_run_now wStateEmptySched wClock wBrand wCampaign = false ∧
    Campaign.activate wStateEmptySched wClock wBrand wCampaign = wStateEmptySched :=
  ⟨by decide, (c8_theorem wStateEmptySched wClock wBrand wCampaign).1 (by decide)⟩

/-- Claim C10 (confirmed). A concrete state in which the month-to-date spend
record total (1500.00) already exceeds the monthly budget (1000.00) but no
summary row exists for today: `has_budget_remaining` is nevertheless true,
and one run of the budget sweep reactivates the manually-enabled
`PAUSED_BUDGET` campaign that is inside its dayparting window. -/
theorem c10_theorem :
    calculate_monthly_spend wState10.spendRecords wBrand wClock.today = 150000 ∧
    wBrand.monthly_budget < 150000 ∧
    wState10.summaries wBrand.id wClock.today = none ∧
    has_budget_remaining wState10 wBrand wClock.today = true ∧
    wCampaign.is_active = true ∧
    statusOf wState10 wCampaign.id = some .PAUSED_BUDGET ∧
    is_within_dayparting_window wState10 wClock wBrand wCampaign = true ∧
    statusOf (update_campaign_status wClock wState10) wCampaign.id =
      some .ACTIVE := by
  refine ⟨?_, ?_, ?_, ?_, ?_, ?_, ?_, ?_⟩ <;> decide

/-! ## Status-tracking lemmas for the guarded-activation claims -/

theorem find?_map_id_preserving (f : Campaign → Campaign)
    (hf : ∀ c, (f c).id = c.id) (l : List Campaign) (cid : Nat) :
    (l.map f).find? (fun c => c.id == cid) =
      (l.find? (fun c => c.id == cid)).map f := by
  induction l with
  | nil => rfl
  | cons a t ih =>
    cases h : (a.id == cid) with
    | true =>
      have hfa : ((f a).id == cid) = true := by rw [hf a]; exact h
      rw [List.map_cons]
      simp only [List.find?_cons, hfa, h]
      rfl
    | false =>
      have hfa : ((f a).id == cid) = false := by rw [hf a]; exact h
      rw [List.map_cons]
      simp only [List.find?_cons, hfa, h]
      exact ih

theorem findCampaign_setStatus (s : DBState) (x : Nat) (v : CStatus) (cid : Nat) :
    findCampaign (setStatus s x v) cid =
      (findCampaign s cid).map
        (fun c => if c.id == x then { c with status := v } else c) := by
  unfold findCampaign setStatus
  exact find?_map_id_preserving _
    (fun c => by by_cases h : c.id == x <;> simp [h]) s.campaigns cid

theorem statusOf_setStatus (s : DBState) (x : Nat) (v : CStatus) (cid : Nat) :
    statusOf (setStatus s x v) cid =
      if cid = x then (statusOf s cid).map (fun _ => v) else statusOf s cid := by
  unfold statusOf
  rw [findCampaign_setStatus]
  cases hc : findCampaign s cid with
  | none => simp
  | some c =>
    have hcid : c.id = cid := by simpa using List.find?_some hc
    by_cases h : cid = x
    · have hc3 : c.id = x := by rw [hcid]; exact h
      simp [hc3, h]
    · have hc3 : ¬ c.id = x := by rw [hcid]; exact h
      simp [hc3, h]

theorem setStatus_nonactive_guard (s : DBState) (x : Nat) (v : CStatus)
    (cid : Nat) (hv : v ≠ .ACTIVE)
    (h : statusOf (setStatus s x v) cid = some .ACTIVE) :
    statusOf s cid = some .ACTIVE := by
  rw [statusOf_setStatus] at h
  split at h
  · exfalso
    cases hst : statusOf s cid with
    | none => rw [hst] at h; cases h
    | some w =>
      rw [hst] at h
      exact hv (Option.some.inj h)
  · exact h

theorem statusOf_congr {s s' : DBState} (h : s'.campaigns = s.campaigns)
    (cid : Nat) : statusOf s' cid = statusOf s cid := by
  unfold statusOf findCampaign
  rw [h]

theorem campaignBrandId_congr {s s' : DBState} (h : s'.campaigns = s.campaigns)
    (cid : Nat) : campaignBrandId s' cid = campaignBrandId s cid := by
  unfold campaignBrandId findCampaign
  rw [h]

theorem campaignBrandId_setStatus (s : DBState) (x : Nat) (v : CStatus)
    (cid : Nat) : campaignBrandId (setStatus s x v) cid = campaignBrandId s cid := by
  unfold campaignBrandId
  rw [findCampaign_setStatus]
  cases hc : findCampaign s cid with
  | none => rfl
  | some c => by_cases h : c.id = x <;> simp [h]

theorem can_run_now_congr {s1 s2 : DBState} (clock : Clock) (b : Brand)
    (c : Campaign) (hsched : s2.schedules = s1.schedules)
    (hsum : s2.summaries b.id clock.today = s1.summaries b.id clock.today) :
    can_run_now s2 clock b c = can_run_now s1 clock b c := by
  unfold can_run_now has_budget_remaining is_within_dayparting_window
  rw [hsched, hsum]

theorem can_run_now_id_setStatus (clock : Clock) (s : DBState) (x : Nat)
    (v : CStatus) (cid : Nat) :
    can_run_now_id clock (setStatus s x v) cid = can_run_now_id clock s cid := by
  unfold can_run_now_id
  rw [findCampaign_setStatus]
  cases hc : findCampaign s cid with
  | none => rfl
  | some c =>
    simp only [Option.map_some']
    by_cases h : (c.id == x) = true
    · rw [if_pos h]
      rfl
    · rw [if_neg h]
      rfl

theorem can_run_now_id_activate (clock : Clock) (s : DBState) (b : Brand)
    (c : Campaign) (cid : Nat) :
    can_run_now_id clock (Campaign.activate s clock b c) cid =
      can_run_now_id clock s cid := by
  unfold Campaign.activate
  split
  · exact can_run_now_id_setStatus clock s c.id .ACTIVE cid
  · rfl

theorem activate_guard (s : DBState) (clock : Clock) (b : Brand) (c : Campaign)
    (cid : Nat)
    (h : statusOf (Campaign.activate s clock b c) cid = some .ACTIVE) :
    statusOf s cid = some .ACTIVE ∨
      (cid = c.id ∧ can_run_now s clock b c = true) := by
  unfold Campaign.activate at h
  split at h
  · rename_i hcan
    by_cases he : cid = c.id
    · exact Or.inr ⟨he, hcan⟩
    · rw [statusOf_setStatus] at h
      rw [if_neg he] at h
      exact Or.inl h
  · exact Or.inl h

theorem fold_guard_generic {E : DBState → Campaign → Prop}
    (step : DBState → Campaign → DBState)
    (hE : ∀ s c c', E (step s c) c' → E s c')
    (hguard : ∀ s c cid, statusOf (step s c) cid = some .ACTIVE →
        statusOf s cid = some .ACTIVE ∨ (cid = c.id ∧ E s c)) :
    ∀ (l : List Campaign) (s0 : DBState) (cid : Nat),
      statusOf (List.foldl step s0 l) cid = some .ACTIVE →
      statusOf s0 cid = some .ACTIVE ∨ ∃ c ∈ l, cid = c.id ∧ E s0 c := by
  intro l
  induction l with
  | nil => intro s0 cid h; exact Or.inl h
  | cons c t ih =>
    intro s0 cid h
    rcases ih (step s0 c) cid h with h1 | ⟨c', hc', hcid, hEc⟩
    · rcases hguard s0 c cid h1 with h2 | ⟨hcid, hEc⟩
      · exact Or.inl h2
      · exact Or.inr ⟨c, List.mem_cons_self c t, hcid, hEc⟩
    · exact Or.inr ⟨c', List.mem_cons_of_mem c hc', hcid, hE s0 c c' hEc⟩

theorem evidence_of_same {clock : Clock} {s s' : DBState}
    (hsame : sameNonCampaign s s') (c : Campaign)
    (h : ∃ b, findBrand s' c.brand_id = some b ∧ can_run_now s' clock b c = true) :
    ∃ b, findBrand s c.brand_id = some b ∧ can_run_now s clock b c = true := by
  obtain ⟨b, hb, hcan⟩ := h
  refine ⟨b, ?_, ?_⟩
  · unfold findBrand at hb ⊢
    rw [hsame.1] at hb
    exact hb
  · have hcongr := can_run_now_congr clock b c hsame.2.1
      (congrFun (congrFun hsame.2.2.2 b.id) clock.today)
    rw [hcongr] at hcan
    exact hcan

theorem check_step_guard (clock : Clock) (s : DBState) (c : Campaign) (cid : Nat)
    (h : statusOf (check_campaign_dayparting_step clock s c) cid = some .ACTIVE) :
    statusOf s cid = some .ACTIVE ∨
      (cid = c.id ∧ ∃ b, findBrand s c.brand_id = some b ∧
        can_run_now s clock b c = true) := by
  unfold check_campaign_dayparting_step at h
  cases hb : findBrand s c.brand_id with
  | none => rw [hb] at h; exact Or.inl h
  | some b =>
    rw [hb] at h
    dsimp only at h
    by_cases h1 : is_within_dayparting_window s clock b c = true
    · rw [if_pos h1] at h
      by_cases h2 : c.status = .PAUSED_DAYPART
      · rw [if_pos h2] at h
        by_cases h3 : has_budget_remaining s b clock.today = true
        · rw [if_pos h3] at h
          rcases activate_guard s clock b c cid h with h4 | ⟨hcid, hcan⟩
          · exact Or.inl h4
          · exact Or.inr ⟨hcid, b, rfl, hcan⟩
        · rw [if_neg h3] at h
          exact Or.inl h
      · rw [if_neg h2] at h
        exact Or.inl h
    · rw [if_neg h1] at h
      by_cases h2 : c.status = .ACTIVE
      · rw [if_pos h2] at h
        exact Or.inl
          (setStatus_nonactive_guard s c.id .PAUSED_DAYPART cid (by decide) h)
      · rw [if_neg h2] at h
        exact Or.inl h

theorem update_step_guard (clock : Clock) (s : DBState) (c : Campaign) (cid : Nat)
    (h : statusOf (update_campaign_status_step clock s c) cid = some .ACTIVE) :
    statusOf s cid = some .ACTIVE ∨
      (cid = c.id ∧ ∃ b, findBrand s c.brand_id = some b ∧
        can_run_now s clock b c = true) := by
  unfold update_campaign_status_step at h
  cases hb : findBrand s c.brand_id with
  | none => rw [hb] at h; exact Or.inl h
  | some b =>
    rw [hb] at h
    dsimp only at h
    by_cases h1 : has_budget_remaining s b clock.today = false ∧ c.status = .ACTIVE
    · rw [if_pos h1] at h
      exact Or.inl
        (setStatus_nonactive_guard s c.id .PAUSED_BUDGET cid (by decide) h)
    · rw [if_neg h1] at h
      by_cases h2 : has_budget_remaining s b clock.today = true ∧
          c.status = .PAUSED_BUDGET
      · rw [if_pos h2] at h
        by_cases h3 : is_within_dayparting_window s clock b c = true
        · rw [if_pos h3] at h
          rcases activate_guard s clock b c cid h with h4 | ⟨hcid, hcan⟩
          · exact Or.inl h4
          · exact Or.inr ⟨hcid, b, rfl, hcan⟩
        · rw [if_neg h3] at h
          exact Or.inl h
      · rw [if_neg h2] at h
        exact Or.inl h

theorem check_step_can_id (clock : Clock) (s : DBState) (c : Campaign) (cid : Nat) :
    can_run_now_id clock (check_campaign_dayparting_step clock s c) cid =
      can_run_now_id clock s cid := by
  unfold check_campaign_dayparting_step
  cases hb : findBrand s c.brand_id with
  | none => rfl
  | some b =>
    dsimp only
    split_ifs
    all_goals first
      | rfl
      | exact can_run_now_id_activate clock s b c cid
      | exact can_run_now_id_setStatus clock s c.id CStatus.PAUSED_DAYPART cid

theorem update_step_can_id (clock : Clock) (s : DBState) (c : Campaign) (cid : Nat) :
    can_run_now_id clock (update_campaign_status_step clock s c) cid =
      can_run_now_id clock s cid := by
  unfold update_campaign_status_step
  cases hb : findBrand s c.brand_id with
  | none => rfl
  | some b =>
    dsimp only
    split_ifs
    all_goals first
      | rfl
      | exact can_run_now_id_activate clock s b c cid
      | exact can_run_now_id_setStatus clock s c.id CStatus.PAUSED_BUDGET cid

theorem foldl_can_id {α : Type} (step : DBState → α → DBState) (clock : Clock)
    (cid : Nat)
    (h : ∀ s a, can_run_now_id clock (step s a) cid = can_run_now_id clock s cid) :
    ∀ (l : List α) (s : DBState),
      can_run_now_id clock (List.foldl step s l) cid = can_run_now_id clock s cid := by
  intro l
  induction l with
  | nil => intro s; rfl
  | cons a t ih =>
    intro s
    rw [List.foldl_cons, ih (step s a), h s a]

theorem findCampaign_self (st : DBState) (hnd : WFcampaigns st) (c : Campaign)
    (hc : c ∈ st.campaigns) : findCampaign st c.id = some c :=
  find_key_unique (fun x : Campaign => x.id) st.campaigns hnd c hc

theorem can_run_now_id_of_resolution (clock : Clock) (st : DBState) (cid : Nat)
    (c : Campaign) (b : Brand) (hfc : findCampaign st cid = some c)
    (hfb : findBrand st c.brand_id = some b)
    (hcan : can_run_now st clock b c = true) :
    can_run_now_id clock st cid = true := by
  unfold can_run_now_id
  rw [hfc]
  dsimp only
  rw [hfb]
  dsimp only
  exact hcan

theorem check_sweep_guard (clock : Clock) (st : DBState) (cid : Nat)
    (hndC : WFcampaigns st)
    (h : statusOf (check_campaign_dayparting clock st) cid = some .ACTIVE) :
    statusOf st cid = some .ACTIVE ∨
      can_run_now_id clock (check_campaign_dayparting clock st) cid = true := by
  unfold check_campaign_dayparting at h ⊢
  rcases fold_guard_generic (E := fun s c => ∃ b, findBrand s c.brand_id = some b ∧
        can_run_now s clock b c = true)
      (check_campaign_dayparting_step clock)
      (fun s c c' hEc => evidence_of_same (check_step_same clock s c) c' hEc)
      (fun s c cid' h' => check_step_guard clock s c cid' h')
      (st.campaigns.filter (·.is_active)) st cid h with
    h1 | ⟨c, hcl, hcid, b, hfb, hcan⟩
  · exact Or.inl h1
  · right
    have hcmem : c ∈ st.campaigns := List.mem_of_mem_filter hcl
    have hfc : findCampaign st cid = some c := by
      rw [hcid]
      exact findCampaign_self st hndC c hcmem
    have hpre : can_run_now_id clock st cid = true :=
      can_run_now_id_of_resolution clock st cid c b hfc hfb hcan
    rw [foldl_can_id _ clock cid
      (fun s a => check_step_can_id clock s a cid) _ st]
    exact hpre

theorem update_sweep_guard (clock : Clock) (st : DBState) (cid : Nat)
    (hndC : WFcampaigns st)
    (h : statusOf (update_campaign_status clock st) cid = some .ACTIVE) :
    statusOf st cid = some .ACTIVE ∨
      can_run_now_id clock (update_campaign_status clock st) cid = true := by
  unfold update_campaign_status at h ⊢
  rcases fold_guard_generic (E := fun s c => ∃ b, findBrand s c.brand_id = some b ∧
        can_run_now s clock b c = true)
      (update_campaign_status_step clock)
      (fun s c c' hEc => evidence_of_same (update_step_same clock s c) c' hEc)
      (fun s c cid' h' => update_step_guard clock s c cid' h')
      (st.campaigns.filter (fun c =>
        c.is_active && (c.status == .ACTIVE || c.status == .PAUSED_BUDGET)))
      st cid h with
    h1 | ⟨c, hcl, hcid, b, hfb, hcan⟩
  · exact Or.inl h1
  · right
    have hcmem : c ∈ st.campaigns := List.mem_of_mem_filter hcl
    have hfc : findCampaign st cid = some c := by
      rw [hcid]
      exact findCampaign_self st hndC c hcmem
    have hpre : can_run_now_id clock st cid = true :=
      can_run_now_id_of_resolution clock st cid c b hfc hfb hcan
    rw [foldl_can_id _ clock cid
      (fun s a => update_step_can_id clock s a cid) _ st]
    exact hpre

theorem record_spend_guard (st : DBState) (bid cid : Nat) (amt : Int) (d : Date)
    (cid' : Nat)
    (h : statusOf (record_spend st bid cid amt d).2 cid' = some .ACTIVE) :
    statusOf st cid' = some .ACTIVE := by
  unfold record_spend at h
  cases hb : st.brands.find? (fun b => b.id == bid && b.is_active) with
  | none => rw [hb] at h; exact h
  | some brand =>
    rw [hb] at h
    dsimp only at h
    cases hc : st.campaigns.find? (fun c =>
        c.id == cid && c.brand_id == brand.id && c.is_active) with
    | none => rw [hc] at h; exact h
    | some campaign =>
      rw [hc] at h
      dsimp only at h
      have hcamp : ∀ row1 row2 : Summary,
          (writeSummary (writeSummary (get_or_create_for_date
            { st with spendRecords := st.spendRecords ++
              [{ brand_id := brand.id, campaign_id := campaign.id,
                 amount := amt, spend_date := d }] } brand d).2 row1) row2).campaigns
            = st.campaigns := by
        intro row1 row2
        exact (get_or_create_frame _ brand d).2.1
      split at h
      · have h2 := setStatus_nonactive_guard _ campaign.id .PAUSED_BUDGET cid'
          (by decide) h
        rw [statusOf_congr (hcamp _ _) cid'] at h2
        exact h2
      · rw [statusOf_congr (hcamp _ _) cid'] at h
        exact h

theorem toggle_guard (clock : Clock) (st : DBState) (cid : Nat)
    (act : ToggleAction) (cid' : Nat) (hndC : WFcampaigns st)
    (h : statusOf (campaign_toggle_post clock st cid act).2 cid' = some .ACTIVE) :
    statusOf st cid' = some .ACTIVE ∨
      can_run_now_id clock (campaign_toggle_post clock st cid act).2 cid' = true := by
  unfold campaign_toggle_post at h ⊢
  cases hcf : st.campaigns.find? (fun c => c.id == cid && c.is_active) with
  | none =>
    rw [hcf] at h
    exact Or.inl h
  | some campaign =>
    rw [hcf] at h
    cases act with
    | doActivate =>
      dsimp only at h ⊢
      cases hb : findBrand st campaign.brand_id with
      | none =>
        rw [hb] at h
        exact Or.inl h
      | some b =>
        rw [hb] at h
        dsimp only at h ⊢
        by_cases hcan : can_run_now st clock b campaign = true
        · rw [if_pos hcan] at h ⊢
          dsimp only at h ⊢
          rcases activate_guard st clock b campaign cid' h with h1 | ⟨hcid, hcan2⟩
          · exact Or.inl h1
          · right
            rw [can_run_now_id_activate clock st b campaign cid']
            have hcmem : campaign ∈ st.campaigns := List.mem_of_find?_eq_some hcf
            have hfc : findCampaign st cid' = some campaign := by
              rw [hcid]
              exact findCampaign_self st hndC campaign hcmem
            exact can_run_now_id_of_resolution clock st cid' campaign b hfc hb hcan2
        · rw [if_neg hcan] at h
          exact Or.inl h
    | doDeactivate =>
      dsimp only at h
      exact Or.inl (setStatus_nonactive_guard st cid .INACTIVE cid' (by decide) h)

theorem foldl_invariant_fun {α β : Type} (g : DBState → β)
    (step : DBState → α → DBState) (h : ∀ s a, g (step s a) = g s) :
    ∀ (l : List α) (s : DBState), g (List.foldl step s l) = g s := by
  intro l
  induction l with
  | nil => intro s; rfl
  | cons a t ih =>
    intro s
    rw [List.foldl_cons, ih (step s a), h s a]

theorem findCampaign_congr {s s' : DBState} (h : s'.campaigns = s.campaigns)
    (cid : Nat) : findCampaign s' cid = findCampaign s cid := by
  unfold findCampaign
  rw [h]

theorem setStatus_ids (s : DBState) (x : Nat) (v : CStatus) :
    (setStatus s x v).campaigns.map (·.id) = s.campaigns.map (·.id) := by
  unfold setStatus
  rw [List.map_map]
  apply List.map_congr_left
  intro a _
  by_cases h : a.id = x <;> simp [h]

theorem activate_ids (s : DBState) (clock : Clock) (b : Brand) (c : Campaign) :
    (Campaign.activate s clock b c).campaigns.map (·.id) =
      s.campaigns.map (·.id) := by
  unfold Campaign.activate
  split
  · exact setStatus_ids s c.id .ACTIVE
  · rfl

theorem campaignBrandId_activate (s : DBState) (clock : Clock) (b : Brand)
    (c : Campaign) (cid : Nat) :
    campaignBrandId (Campaign.activate s clock b c) cid = campaignBrandId s cid := by
  unfold Campaign.activate
  split
  · exact campaignBrandId_setStatus s c.id .ACTIVE cid
  · rfl

theorem inner_step_can_id (clock : Clock) (b : Brand) (s : DBState) (c : Campaign)
    (cid : Nat) :
    can_run_now_id clock
        (if can_run_now s clock b c then Campaign.activate s clock b c else s) cid =
      can_run_now_id clock s cid := by
  split
  · exact can_run_now_id_activate clock s b c cid
  · rfl

theorem inner_step_ids (clock : Clock) (b : Brand) (s : DBState) (c : Campaign) :
    ((if can_run_now s clock b c then Campaign.activate s clock b c
        else s).campaigns.map (·.id)) = s.campaigns.map (·.id) := by
  split
  · exact activate_ids s clock b c
  · rfl

theorem inner_step_brandId (clock : Clock) (b : Brand) (s : DBState) (c : Campaign)
    (cid : Nat) :
    campaignBrandId
        (if can_run_now s clock b c then Campaign.activate s clock b c else s) cid =
      campaignBrandId s cid := by
  split
  · exact campaignBrandId_activate s clock b c cid
  · rfl

theorem inner_hE (clock : Clock) (b : Brand) :
    ∀ (s : DBState) (c c' : Campaign),
      can_run_now (if can_run_now s clock b c then Campaign.activate s clock b c
        else s) clock b c' = true →
      can_run_now s clock b c' = true := by
  intro s c c' h
  have hsame := inner_step_same clock b s c
  rw [can_run_now_congr clock b c' hsame.2.1
    (congrFun (congrFun hsame.2.2.2 b.id) clock.today)] at h
  exact h

theorem inner_hguard (clock : Clock) (b : Brand) :
    ∀ (s : DBState) (c : Campaign) (cid : Nat),
      statusOf (if can_run_now s clock b c then Campaign.activate s clock b c
        else s) cid = some .ACTIVE →
      statusOf s cid = some .ACTIVE ∨
        (cid = c.id ∧ can_run_now s clock b c = true) := by
  intro s c cid h
  split at h
  · exact activate_guard s clock b c cid h
  · exact Or.inl h

theorem can_run_now_id_writeSummary (clock : Clock) (s : DBState) (row : Summary)
    (cid : Nat)
    (hother : ∀ c, findCampaign s cid = some c →
      ¬(c.brand_id = row.brand_id ∧ clock.today = row.date)) :
    can_run_now_id clock (writeSummary s row) cid = can_run_now_id clock s cid := by
  unfold can_run_now_id
  rw [show findCampaign (writeSummary s row) cid = findCampaign s cid from rfl]
  cases hc : findCampaign s cid with
  | none => rfl
  | some c =>
    dsimp only
    rw [show findBrand (writeSummary s row) c.brand_id
      = findBrand s c.brand_id from rfl]
    cases hb : findBrand s c.brand_id with
    | none => rfl
    | some b =>
      dsimp only
      have hbid : b.id = c.brand_id := by simpa using List.find?_some hb
      have hP : ¬ (b.id = row.brand_id ∧ clock.today = row.date) := by
        intro hcontra
        exact hother c hc ⟨hbid ▸ hcontra.1, hcontra.2⟩
      exact can_run_now_congr clock b c rfl
        (by dsimp only [writeSummary]; rw [if_neg hP])

theorem get_or_create_summaries_other (s : DBState) (b : Brand) (d : Date)
    (bid : Nat) (d' : Date) (hne : ¬(bid = b.id ∧ d' = d)) :
    (get_or_create_for_date s b d).2.summaries bid d' = s.summaries bid d' := by
  unfold get_or_create_for_date
  cases h : s.summaries b.id d with
  | some x => rfl
  | none =>
    dsimp only [writeSummary]
    exact if_neg hne

theorem can_run_now_id_get_or_create (clock : Clock) (s : DBState) (b : Brand)
    (d : Date) (cid : Nat)
    (hother : ∀ c, findCampaign s cid = some c →
      ¬(c.brand_id = b.id ∧ clock.today = d)) :
    can_run_now_id clock (get_or_create_for_date s b d).2 cid =
      can_run_now_id clock s cid := by
  unfold get_or_create_for_date
  cases h : s.summaries b.id d with
  | some x => rfl
  | none =>
    dsimp only
    exact can_run_now_id_writeSummary clock s _ cid
      (fun c hc hcontra => hother c hc ⟨hcontra.1, hcontra.2⟩)

theorem reset_daily_step_brands (clock : Clock) (s : DBState) (b : Brand) :
    (reset_daily_budgets_brand clock s b).brands = s.brands := by
  unfold reset_daily_budgets_brand
  dsimp only
  split
  · rw [foldl_invariant_fun (fun s' => s'.brands) _
      (fun s' c => (inner_step_same clock b s' c).1)]
    exact (get_or_create_frame s b clock.today).1
  · exact (get_or_create_frame s b clock.today).1

theorem reset_daily_step_ids (clock : Clock) (s : DBState) (b : Brand) :
    (reset_daily_budgets_brand clock s b).campaigns.map (·.id) =
      s.campaigns.map (·.id) := by
  unfold reset_daily_budgets_brand
  dsimp only
  split
  · rw [foldl_invariant_fun (fun s' => s'.campaigns.map (·.id)) _
      (fun s' c => inner_step_ids clock b s' c)]
    rw [show (writeSummary (get_or_create_for_date s b clock.today).2
      (Summary.reset_daily_spend b (get_or_create_for_date s b clock.today).1)).campaigns
      = (get_or_create_for_date s b clock.today).2.campaigns from rfl]
    rw [(get_or_create_frame s b clock.today).2.1]
  · rw [(get_or_create_frame s b clock.today).2.1]

theorem reset_daily_step_brandId (clock : Clock) (s : DBState) (b : Brand)
    (cid : Nat) :
    campaignBrandId (reset_daily_budgets_brand clock s b) cid =
      campaignBrandId s cid := by
  unfold reset_daily_budgets_brand
  dsimp only
  split
  · rw [foldl_invariant_fun (fun s' => campaignBrandId s' cid) _
      (fun s' c => inner_step_brandId clock b s' c cid)]
    exact campaignBrandId_congr (get_or_create_frame s b clock.today).2.1 cid
  · exact campaignBrandId_congr (get_or_create_frame s b clock.today).2.1 cid

theorem reset_daily_step_keyed (clock : Clock) (s : DBState) (b : Brand)
    (hk : KeyedOK s) : KeyedOK (reset_daily_budgets_brand clock s b) := by
  have hk1 := get_or_create_keyed s b clock.today hk
  unfold reset_daily_budgets_brand
  dsimp only
  split
  · have hk2 := KeyedOK_write (get_or_create_for_date s b clock.today).2
      (Summary.reset_daily_spend b (get_or_create_for_date s b clock.today).1) hk1
    exact KeyedOK_of_same
      (foldl_sameNonCampaign _ (inner_step_same clock b) _ _) hk2
  · exact hk1

theorem reset_daily_step_can_id_other (clock : Clock) (s : DBState) (b : Brand)
    (cid : Nat) (hk : KeyedOK s)
    (hother : ∀ c, findCampaign s cid = some c → c.brand_id ≠ b.id) :
    can_run_now_id clock (reset_daily_budgets_brand clock s b) cid =
      can_run_now_id clock s cid := by
  have hkey := get_or_create_key s b clock.today hk
  have h1 : can_run_now_id clock (get_or_create_for_date s b clock.today).2 cid =
      can_run_now_id clock s cid :=
    can_run_now_id_get_or_create clock s b clock.today cid
      (fun c hc hcon => hother c hc hcon.1)
  unfold reset_daily_budgets_brand
  dsimp only
  split
  · rw [foldl_invariant_fun (fun s' => can_run_now_id clock s' cid) _
      (fun s' c => inner_step_can_id clock b s' c cid)]
    rw [can_run_now_id_writeSummary clock _ _ cid ?_]
    · exact h1
    · intro c hc hcontra
      have hcs : findCampaign (get_or_create_for_date s b clock.today).2 cid =
          findCampaign s cid :=
        findCampaign_congr (get_or_create_frame s b clock.today).2.1 cid
      rw [hcs] at hc
      apply hother c hc
      have hrow : (Summary.reset_daily_spend b
          (get_or_create_for_date s b clock.today).1).brand_id = b.id := hkey.1
      rw [← hrow]
      exact hcontra.1
  · exact h1

theorem reset_daily_step_guard (clock : Clock) (s : DBState) (b : Brand)
    (cid : Nat) (hndB : WFbrands s) (hndC : WFcampaigns s) (hmem : b ∈ s.brands)
    (h : statusOf (reset_daily_budgets_brand clock s b) cid = some .ACTIVE) :
    statusOf s cid = some .ACTIVE ∨
      (can_run_now_id clock (reset_daily_budgets_brand clock s b) cid = true ∧
       campaignBrandId s cid = some b.id) := by
  have hcamp1 : (get_or_create_for_date s b clock.today).2.campaigns = s.campaigns :=
    (get_or_create_frame s b clock.today).2.1
  unfold reset_daily_budgets_brand at h ⊢
  dsimp only at h ⊢
  by_cases hpos : (get_or_create_for_date s b clock.today).1.daily_spend > 0
  · rw [if_pos hpos] at h ⊢
    rcases fold_guard_generic (E := fun s' c => can_run_now s' clock b c = true)
        (fun s' c => if can_run_now s' clock b c then Campaign.activate s' clock b c
          else s')
        (inner_hE clock b) (inner_hguard clock b) _ _ cid h with
      h1 | ⟨c, hcmem, hcid, hcan⟩
    · left
      rw [statusOf_congr (show (writeSummary (get_or_create_for_date s b clock.today).2
        (Summary.reset_daily_spend b (get_or_create_for_date s b clock.today).1)).campaigns
          = s.campaigns from hcamp1) cid] at h1
      exact h1
    · obtain ⟨hcmem2, hpred⟩ := List.mem_filter.mp hcmem
      have hbid : c.brand_id = b.id := by
        simp only [Bool.and_eq_true, beq_iff_eq] at hpred
        exact hpred.1.1
      have hcmem_s : c ∈ s.campaigns := by
        rw [show (writeSummary (get_or_create_for_date s b clock.today).2
          (Summary.reset_daily_spend b (get_or_create_for_date s b clock.today).1)).campaigns
            = s.campaigns from hcamp1] at hcmem2
        exact hcmem2
      have hfc_s : findCampaign s cid = some c := by
        rw [hcid]
        exact findCampaign_self s hndC c hcmem_s
      right
      constructor
      · rw [foldl_invariant_fun (fun s' => can_run_now_id clock s' cid) _
          (fun s' c' => inner_step_can_id clock b s' c' cid)]
        apply can_run_now_id_of_resolution clock _ cid c b ?_ ?_ hcan
        · rw [findCampaign_congr (show (writeSummary (get_or_create_for_date s b clock.today).2
            (Summary.reset_daily_spend b (get_or_create_for_date s b clock.today).1)).campaigns
              = s.campaigns from hcamp1) cid]
          exact hfc_s
        · rw [show findBrand (writeSummary (get_or_create_for_date s b clock.today).2
            (Summary.reset_daily_spend b (get_or_create_for_date s b clock.today).1))
              c.brand_id = findBrand (get_or_create_for_date s b clock.today).2 c.brand_id
              from rfl]
          unfold findBrand
          rw [(get_or_create_frame s b clock.today).1, hbid]
          exact findBrand_self s hndB b hmem
      · rw [hcid]
        unfold campaignBrandId
        rw [findCampaign_self s hndC c hcmem_s]
        simp [hbid]
  · rw [if_neg hpos] at h ⊢
    left
    rw [statusOf_congr hcamp1 cid] at h
    exact h

theorem reset_monthly_step_brands (clock : Clock) (s : DBState) (b : Brand) :
    (reset_monthly_budgets_brand clock s b).brands = s.brands := by
  unfold reset_monthly_budgets_brand
  dsimp only
  split
  · rw [foldl_invariant_fun (fun s' => s'.brands) _
      (fun s' c => (inner_step_same clock b s' c).1)]
    exact (get_or_create_frame s b clock.today).1
  · exact (get_or_create_frame s b clock.today).1

theorem reset_monthly_step_ids (clock : Clock) (s : DBState) (b : Brand) :
    (reset_monthly_budgets_brand clock s b).campaigns.map (·.id) =
      s.campaigns.map (·.id) := by
  unfold reset_monthly_budgets_brand
  dsimp only
  split
  · rw [foldl_invariant_fun (fun s' => s'.campaigns.map (·.id)) _
      (fun s' c => inner_step_ids clock b s' c)]
    rw [show (writeSummary (get_or_create_for_date s b clock.today).2
      (Summary.reset_monthly_spend b (get_or_create_for_date s b clock.today).1)).campaigns
      = (get_or_create_for_date s b clock.today).2.campaigns from rfl]
    rw [(get_or_create_frame s b clock.today).2.1]
  · rw [(get_or_create_frame s b clock.today).2.1]

theorem reset_monthly_step_brandId (clock : Clock) (s : DBState) (b : Brand)
    (cid : Nat) :
    campaignBrandId (reset_monthly_budgets_brand clock s b) cid =
      campaignBrandId s cid := by
  unfold reset_monthly_budgets_brand
  dsimp only
  split
  · rw [foldl_invariant_fun (fun s' => campaignBrandId s' cid) _
      (fun s' c => inner_step_brandId clock b s' c cid)]
    exact campaignBrandId_congr (get_or_create_frame s b clock.today).2.1 cid
  · exact campaignBrandId_congr (get_or_create_frame s b clock.today).2.1 cid

theorem reset_monthly_step_keyed (clock : Clock) (s : DBState) (b : Brand)
    (hk : KeyedOK s) : KeyedOK (reset_monthly_budgets_brand clock s b) := by
  have hk1 := get_or_create_keyed s b clock.today hk
  unfold reset_monthly_budgets_brand
  dsimp only
  split
  · have hk2 := KeyedOK_write (get_or_create_for_date s b clock.today).2
      (Summary.reset_monthly_spend b (get_or_create_for_date s b clock.today).1) hk1
    exact KeyedOK_of_same
      (foldl_sameNonCampaign _ (inner_step_same clock b) _ _) hk2
  · exact hk1

theorem reset_monthly_step_can_id_other (clock : Clock) (s : DBState) (b : Brand)
    (cid : Nat) (hk : KeyedOK s)
    (hother : ∀ c, findCampaign s cid = some c → c.brand_id ≠ b.id) :
    can_run_now_id clock (reset_monthly_budgets_brand clock s b) cid =
      can_run_now_id clock s cid := by
  have hkey := get_or_create_key s b clock.today hk
  have h1 : can_run_now_id clock (get_or_create_for_date s b clock.today).2 cid =
      can_run_now_id clock s cid :=
    can_run_now_id_get_or_create clock s b clock.today cid
      (fun c hc hcon => hother c hc hcon.1)
  unfold reset_monthly_budgets_brand
  dsimp only
  split
  · rw [foldl_invariant_fun (fun s' => can_run_now_id clock s' cid) _
      (fun s' c => inner_step_can_id clock b s' c cid)]
    rw [can_run_now_id_writeSummary clock _ _ cid ?_]
    · exact h1
    · intro c hc hcontra
      have hcs : findCampaign (get_or_create_for_date s b clock.today).2 cid =
          findCampaign s cid :=
        findCampaign_congr (get_or_create_frame s b clock.today).2.1 cid
      rw [hcs] at hc
      apply hother c hc
      have hrow : (Summary.reset_monthly_spend b
          (get_or_create_for_date s b clock.today).1).brand_id = b.id := hkey.1
      rw [← hrow]
      exact hcontra.1
  · exact h1

theorem reset_monthly_step_guard (clock : Clock) (s : DBState) (b : Brand)
    (cid : Nat) (hndB : WFbrands s) (hndC : WFcampaigns s) (hmem : b ∈ s.brands)
    (h : statusOf (reset_monthly_budgets_brand clock s b) cid = some .ACTIVE) :
    statusOf s cid = some .ACTIVE ∨
      (can_run_now_id clock (reset_monthly_budgets_brand clock s b) cid = true ∧
       campaignBrandId s cid = some b.id) := by
  have hcamp1 : (get_or_create_for_date s b clock.today).2.campaigns = s.campaigns :=
    (get_or_create_frame s b clock.today).2.1
  unfold reset_monthly_budgets_brand at h ⊢
  dsimp only at h ⊢
  by_cases hpos : (get_or_create_for_date s b clock.today).1.monthly_spend > 0
  · rw [if_pos hpos] at h ⊢
    rcases fold_guard_generic (E := fun s' c => can_run_now s' clock b c = true)
        (fun s' c => if can_run_now s' clock b c then Campaign.activate s' clock b c
          else s')
        (inner_hE clock b) (inner_hguard clock b) _ _ cid h with
      h1 | ⟨c, hcmem, hcid, hcan⟩
    · left
      rw [statusOf_congr (show (writeSummary (get_or_create_for_date s b clock.today).2
        (Summary.reset_monthly_spend b (get_or_create_for_date s b clock.today).1)).campaigns
          = s.campaigns from hcamp1) cid] at h1
      exact h1
    · obtain ⟨hcmem2, hpred⟩ := List.mem_filter.mp hcmem
      have hbid : c.brand_id = b.id := by
        simp only [Bool.and_eq_true, beq_iff_eq] at hpred
        exact hpred.1.1
      have hcmem_s : c ∈ s.campaigns := by
        rw [show (writeSummary (get_or_create_for_date s b clock.today).2
          (Summary.reset_monthly_spend b (get_or_create_for_date s b clock.today).1)).campaigns
            = s.campaigns from hcamp1] at hcmem2
        exact hcmem2
      have hfc_s : findCampaign s cid = some c := by
        rw [hcid]
        exact findCampaign_self s hndC c hcmem_s
      right
      constructor
      · rw [foldl_invariant_fun (fun s' => can_run_now_id clock s' cid) _
          (fun s' c' => inner_step_can_id clock b s' c' cid)]
        apply can_run_now_id_of_resolution clock _ cid c b ?_ ?_ hcan
        · rw [findCampaign_congr (show (writeSummary (get_or_create_for_date s b clock.today).2
            (Summary.reset_monthly_spend b (get_or_create_for_date s b clock.today).1)).campaigns
              = s.campaigns from hcamp1) cid]
          exact hfc_s
        · rw [show findBrand (writeSummary (get_or_create_for_date s b clock.today).2
            (Summary.reset_monthly_spend b (get_or_create_for_date s b clock.today).1))
              c.brand_id = findBrand (get_or_create_for_date s b clock.today).2 c.brand_id
              from rfl]
          unfold findBrand
          rw [(get_or_create_frame s b clock.today).1, hbid]
          exact findBrand_self s hndB b hmem
      · rw [hcid]
        unfold campaignBrandId
        rw [findCampaign_self s hndC c hcmem_s]
        simp [hbid]
  · rw [if_neg hpos] at h ⊢
    left
    rw [statusOf_congr hcamp1 cid] at h
    exact h

theorem reset_daily_fold_can_id_stable (clock : Clock) :
    ∀ (tl : List Brand) (s : DBState) (cid bidc : Nat),
      KeyedOK s → campaignBrandId s cid = some bidc →
      (∀ b'' ∈ tl, b''.id ≠ bidc) →
      can_run_now_id clock (List.foldl (reset_daily_budgets_brand clock) s tl) cid =
        can_run_now_id clock s cid := by
  intro tl
  induction tl with
  | nil => intro s cid bidc _ _ _; rfl
  | cons bb t ih =>
    intro s cid bidc hk hbid hne
    rw [List.foldl_cons]
    have hstep : can_run_now_id clock (reset_daily_budgets_brand clock s bb) cid =
        can_run_now_id clock s cid := by
      apply reset_daily_step_can_id_other clock s bb cid hk
      intro c hc
      have hbc : campaignBrandId s cid = some c.brand_id := by
        unfold campaignBrandId
        rw [hc]
        rfl
      rw [hbid] at hbc
      have : c.brand_id = bidc := (Option.some.inj hbc).symm
      rw [this]
      exact fun heq => hne bb (List.mem_cons_self bb t) heq.symm
    rw [ih (reset_daily_budgets_brand clock s bb) cid bidc
      (reset_daily_step_keyed clock s bb hk)
      (by rw [reset_daily_step_brandId clock s bb cid]; exact hbid)
      (fun x hx => hne x (List.mem_cons_of_mem bb hx)), hstep]

theorem reset_daily_fold_guard (clock : Clock) :
    ∀ (bl : List Brand) (s : DBState), (bl.map (·.id)).Nodup →
      (∀ b ∈ bl, b ∈ s.brands) → WFbrands s → WFcampaigns s → KeyedOK s →
      ∀ cid,
        statusOf (List.foldl (reset_daily_budgets_brand clock) s bl) cid =
          some .ACTIVE →
        statusOf s cid = some .ACTIVE ∨
          can_run_now_id clock
            (List.foldl (reset_daily_budgets_brand clock) s bl) cid = true := by
  intro bl
  induction bl with
  | nil => intro s _ _ _ _ _ cid h; exact Or.inl h
  | cons b t ih =>
    intro s hnd hsub hndB hndC hk cid h
    rw [List.foldl_cons] at h
    have hbr1 : (reset_daily_budgets_brand clock s b).brands = s.brands :=
      reset_daily_step_brands clock s b
    have hids1 : (reset_daily_budgets_brand clock s b).campaigns.map (·.id) =
        s.campaigns.map (·.id) := reset_daily_step_ids clock s b
    have hk1 : KeyedOK (reset_daily_budgets_brand clock s b) :=
      reset_daily_step_keyed clock s b hk
    have hndB1 : WFbrands (reset_daily_budgets_brand clock s b) := by
      unfold WFbrands
      rw [hbr1]
      exact hndB
    have hndC1 : WFcampaigns (reset_daily_budgets_brand clock s b) := by
      unfold WFcampaigns
      rw [hids1]
      exact hndC
    have hsub1 : ∀ b' ∈ t, b' ∈ (reset_daily_budgets_brand clock s b).brands := by
      intro b' hb'
      rw [hbr1]
      exact hsub b' (List.mem_cons_of_mem b hb')
    have hndpair := List.nodup_cons.mp (by rw [List.map_cons] at hnd; exact hnd)
    rcases ih (reset_daily_budgets_brand clock s b) hndpair.2 hsub1 hndB1 hndC1
        hk1 cid h with h1 | h2
    · rcases reset_daily_step_guard clock s b cid hndB hndC
          (hsub b (List.mem_cons_self b t)) h1 with h3 | ⟨hcan1, hbid⟩
      · exact Or.inl h3
      · right
        rw [List.foldl_cons]
        rw [reset_daily_fold_can_id_stable clock t
          (reset_daily_budgets_brand clock s b) cid b.id hk1
          (by rw [reset_daily_step_brandId clock s b cid]; exact hbid)
          (fun x hx heq => hndpair.1 (heq ▸ List.mem_map_of_mem (·.id) hx))]
        exact hcan1
    · right
      rw [List.foldl_cons]
      exact h2

theorem reset_daily_sweep_guard (clock : Clock) (st : DBState) (cid : Nat)
    (hndB : WFbrands st) (hndC : WFcampaigns st) (hk : KeyedOK st)
    (h : statusOf (reset_daily_budgets clock st) cid = some .ACTIVE) :
    statusOf st cid = some .ACTIVE ∨
      can_run_now_id clock (reset_daily_budgets clock st) cid = true := by
  unfold reset_daily_budgets at h ⊢
  exact reset_daily_fold_guard clock (st.brands.filter (·.is_active)) st
    (List.Nodup.sublist (List.Sublist.map (·.id) (List.filter_sublist st.brands)) hndB)
    (fun b hb => List.mem_of_mem_filter hb) hndB hndC hk cid h

theorem reset_monthly_fold_can_id_stable (clock : Clock) :
    ∀ (tl : List Brand) (s : DBState) (cid bidc : Nat),
      KeyedOK s → campaignBrandId s cid = some bidc →
      (∀ b'' ∈ tl, b''.id ≠ bidc) →
      can_run_now_id clock (List.foldl (reset_monthly_budgets_brand clock) s tl) cid =
        can_run_now_id clock s cid := by
  intro tl
  induction tl with
  | nil => intro s cid bidc _ _ _; rfl
  | cons bb t ih =>
    intro s cid bidc hk hbid hne
    rw [List.foldl_cons]
    have hstep : can_run_now_id clock (reset_monthly_budgets_brand clock s bb) cid =
        can_run_now_id clock s cid := by
      apply reset_monthly_step_can_id_other clock s bb cid hk
      intro c hc
      have hbc : campaignBrandId s cid = some c.brand_id := by
        unfold campaignBrandId
        rw [hc]
        rfl
      rw [hbid] at hbc
      have : c.brand_id = bidc := (Option.some.inj hbc).symm
      rw [this]
      exact fun heq => hne bb (List.mem_cons_self bb t) heq.symm
    rw [ih (reset_monthly_budgets_brand clock s bb) cid bidc
      (reset_monthly_step_keyed clock s bb hk)
      (by rw [reset_monthly_step_brandId clock s bb cid]; exact hbid)
      (fun x hx => hne x (List.mem_cons_of_mem bb hx)), hstep]

theorem reset_monthly_fold_guard (clock : Clock) :
    ∀ (bl : List Brand) (s : DBState), (bl.map (·.id)).Nodup →
      (∀ b ∈ bl, b ∈ s.brands) → WFbrands s → WFcampaigns s → KeyedOK s →
      ∀ cid,
        statusOf (List.foldl (reset_monthly_budgets_brand clock) s bl) cid =
          some .ACTIVE →
        statusOf s cid = some .ACTIVE ∨
          can_run_now_id clock
            (List.foldl (reset_monthly_budgets_brand clock) s bl) cid = true := by
  intro bl
  induction bl with
  | nil => intro s _ _ _ _ _ cid h; exact Or.inl h
  | cons b t ih =>
    intro s hnd hsub hndB hndC hk cid h
    rw [List.foldl_cons] at h
    have hbr1 : (reset_monthly_budgets_brand clock s b).brands = s.brands :=
      reset_monthly_step_brands clock s b
    have hids1 : (reset_monthly_budgets_brand clock s b).campaigns.map (·.id) =
        s.campaigns.map (·.id) := reset_monthly_step_ids clock s b
    have hk1 : KeyedOK (reset_monthly_budgets_brand clock s b) :=
      reset_monthly_step_keyed clock s b hk
    have hndB1 : WFbrands (reset_monthly_budgets_brand clock s b) := by
      unfold WFbrands
      rw [hbr1]
      exact hndB
    have hndC1 : WFcampaigns (reset_monthly_budgets_brand clock s b) := by
      unfold WFcampaigns
      rw [hids1]
      exact hndC
    have hsub1 : ∀ b' ∈ t, b' ∈ (reset_monthly_budgets_brand clock s b).brands := by
      intro b' hb'
      rw [hbr1]
      exact hsub b' (List.mem_cons_of_mem b hb')
    have hndpair := List.nodup_cons.mp (by rw [List.map_cons] at hnd; exact hnd)
    rcases ih (reset_monthly_budgets_brand clock s b) hndpair.2 hsub1 hndB1 hndC1
        hk1 cid h with h1 | h2
    · rcases reset_monthly_step_guard clock s b cid hndB hndC
          (hsub b (List.mem_cons_self b t)) h1 with h3 | ⟨hcan1, hbid⟩
      · exact Or.inl h3
      · right
        rw [List.foldl_cons]
        rw [reset_monthly_fold_can_id_stable clock t
          (reset_monthly_budgets_brand clock s b) cid b.id hk1
          (by rw [reset_monthly_step_brandId clock s b cid]; exact hbid)
          (fun x hx heq => hndpair.1 (heq ▸ List.mem_map_of_mem (·.id) hx))]
        exact hcan1
    · right
      rw [List.foldl_cons]
      exact h2

theorem reset_monthly_sweep_guard (clock : Clock) (st : DBState) (cid : Nat)
    (hndB : WFbrands st) (hndC : WFcampaigns st) (hk : KeyedOK st)
    (h : statusOf (reset_monthly_budgets clock st) cid = some .ACTIVE) :
    statusOf st cid = some .ACTIVE ∨
      can_run_now_id clock (reset_monthly_budgets clock st) cid = true := by
  unfold reset_monthly_budgets at h ⊢
  exact reset_monthly_fold_guard clock (st.brands.filter (·.is_active)) st
    (List.Nodup.sublist (List.Sublist.map (·.id) (List.filter_sublist st.brands)) hndB)
    (fun b hb => List.mem_of_mem_filter hb) hndB hndC hk cid h

/-- Claim C9 (confirmed). In every well-formed state (unique brand and
campaign primary keys, summary rows stored under their own key), no operation
— the dayparting sweep, the budget sweep, the daily and monthly resets, the
`record_spend` task, or the toggle endpoint — moves a campaign to `ACTIVE`
unless `can_run_now` holds for it: every status write of `ACTIVE` goes
through `Campaign.activate`, whose `can_run_now` guard still holds, for the
affected campaign, when the operation finishes (the operations never
invalidate the guard of a campaign they activated; `record_spend` never
writes `ACTIVE` at all). -/
theorem c9_theorem (st : DBState) (clock : Clock)
    (hndB : WFbrands st) (hndC : WFcampaigns st) (hk : KeyedOK st) :
    (∀ cid, statusOf (check_campaign_dayparting clock st) cid = some .ACTIVE →
       statusOf st cid = some .ACTIVE ∨
       can_run_now_id clock (check_campaign_dayparting clock st) cid = true) ∧
    (∀ cid, statusOf (update_campaign_status clock st) cid = some .ACTIVE →
       statusOf st cid = some .ACTIVE ∨
       can_run_now_id clock (update_campaign_status clock st) cid = true) ∧
    (∀ cid, statusOf (reset_daily_budgets clock st) cid = some .ACTIVE →
       statusOf st cid = some .ACTIVE ∨
       can_run_now_id clock (reset_daily_budgets clock st) cid = true) ∧
    (∀ cid, statusOf (reset_monthly_budgets clock st) cid = some .ACTIVE →
       statusOf st cid = some .ACTIVE ∨
       can_run_now_id clock (reset_monthly_budgets clock st) cid = true) ∧
    (∀ bid cid amt d cid',
       statusOf (record_spend st bid cid amt d).2 cid' = some .ACTIVE →
       statusOf st cid' = some .ACTIVE) ∧
    (∀ cid act cid',
       statusOf (campaign_toggle_post clock st cid act).2 cid' = some .ACTIVE →
       statusOf st cid' = some .ACTIVE ∨
       can_run_now_id clock (campaign_toggle_post clock st cid act).2 cid' = true) := by
  refine ⟨?_, ?_, ?_, ?_, ?_, ?_⟩
  · intro cid h
    exact check_sweep_guard clock st cid hndC h
  · intro cid h
    exact update_sweep_guard clock st cid hndC h
  · intro cid h
    exact reset_daily_sweep_guard clock st cid hndB hndC hk h
  · intro cid h
    exact reset_monthly_sweep_guard clock st cid hndB hndC hk h
  · intro bid cid amt d cid' h
    exact record_spend_guard st bid cid amt d cid' h
  · intro cid act cid' h
    exact toggle_guard clock st cid act cid' hndC h

/-- Witness for C9: the theorem applied to the concrete state `wState` and
clock `wClock`, with the well-formedness hypotheses discharged. -/
theorem c9_witness :
    (∀ cid, statusOf (check_campaign_dayparting wClock wState) cid = some .ACTIVE →
       statusOf wState cid = some .ACTIVE ∨
       can_run_now_id wClock (check_campaign_dayparting wClock wState) cid = true) ∧
    (∀ cid, statusOf (update_campaign_status wClock wState) cid = some .ACTIVE →
       statusOf wState cid = some .ACTIVE ∨
       can_run_now_id wClock (update_campaign_status wClock wState) cid = true) ∧
    (∀ cid, statusOf (reset_daily_budgets wClock wState) cid = some .ACTIVE →
       statusOf wState cid = some .ACTIVE ∨
       can_run_now_id wClock (reset_daily_budgets wClock wState) cid = true) ∧
    (∀ cid, statusOf (reset_monthly_budgets wClock wState) cid = some .ACTIVE →
       statusOf wState cid = some .ACTIVE ∨
       can_run_now_id wClock (reset_monthly_budgets wClock wState) cid = true) ∧
    (∀ bid cid amt d cid',
       statusOf (record_spend wState bid cid amt d).2 cid' = some .ACTIVE →
       statusOf wState cid' = some .ACTIVE) ∧
    (∀ cid act cid',
       statusOf (campaign_toggle_post wClock wState cid act).2 cid' = some .ACTIVE →
       statusOf wState cid' = some .ACTIVE ∨
       can_run_now_id wClock (campaign_toggle_post wClock wState cid act).2 cid'
         = true) :=
  c9_theorem wState wClock
    (by show (wState.brands.map (·.id)).Nodup; decide)
    (by show (wState.campaigns.map (·.id)).Nodup; decide)
    (fun _ _ _ h => nomatch h)

theorem inner_fold_statusOf_notin (clock : Clock) (b : Brand) :
    ∀ (l : List Campaign) (s : DBState) (cid : Nat),
      (∀ c ∈ l, c.id ≠ cid) →
      statusOf (List.foldl (fun s c =>
        if can_run_now s clock b c then Campaign.activate s clock b c else s) s l)
        cid = statusOf s cid := by
  intro l
  induction l with
  | nil => intro s cid _; rfl
  | cons c t ih =>
    intro s cid hne
    rw [List.foldl_cons, ih _ cid (fun c' hc' => hne c' (List.mem_cons_of_mem c hc'))]
    by_cases hcr : can_run_now s clock b c = true
    · rw [if_pos hcr]
      unfold Campaign.activate
      rw [if_pos hcr]
      rw [statusOf_setStatus]
      rw [if_neg (fun heq => hne c (List.mem_cons_self c t) heq.symm)]
    · rw [if_neg hcr]

theorem findCampaign_core_setStatus (s : DBState) (x : Nat) (v : CStatus)
    (cid : Nat) :
    (findCampaign (setStatus s x v) cid).map (fun c => (c.brand_id, c.is_active)) =
      (findCampaign s cid).map (fun c => (c.brand_id, c.is_active)) := by
  rw [findCampaign_setStatus]
  cases hc : findCampaign s cid with
  | none => rfl
  | some c => by_cases h : c.id = x <;> simp [h]

theorem findCampaign_core_activate (s : DBState) (clock : Clock) (b : Brand)
    (c : Campaign) (cid : Nat) :
    (findCampaign (Campaign.activate s clock b c) cid).map
        (fun c => (c.brand_id, c.is_active)) =
      (findCampaign s cid).map (fun c => (c.brand_id, c.is_active)) := by
  unfold Campaign.activate
  split
  · exact findCampaign_core_setStatus s c.id .ACTIVE cid
  · rfl

theorem inner_step_core (clock : Clock) (b : Brand) (s : DBState) (c : Campaign)
    (cid : Nat) :
    (findCampaign (if can_run_now s clock b c then Campaign.activate s clock b c
        else s) cid).map (fun c => (c.brand_id, c.is_active)) =
      (findCampaign s cid).map (fun c => (c.brand_id, c.is_active)) := by
  split
  · exact findCampaign_core_activate s clock b c cid
  · rfl

theorem reset_daily_step_schedules (clock : Clock) (s : DBState) (b : Brand) :
    (reset_daily_budgets_brand clock s b).schedules = s.schedules := by
  unfold reset_daily_budgets_brand
  dsimp only
  split
  · rw [foldl_invariant_fun (fun s' => s'.schedules) _
      (fun s' c => (inner_step_same clock b s' c).2.1)]
    exact (get_or_create_frame s b clock.today).2.2.1
  · exact (get_or_create_frame s b clock.today).2.2.1

theorem reset_daily_step_core (clock : Clock) (s : DBState) (b : Brand)
    (cid : Nat) :
    (findCampaign (reset_daily_budgets_brand clock s b) cid).map
        (fun c => (c.brand_id, c.is_active)) =
      (findCampaign s cid).map (fun c => (c.brand_id, c.is_active)) := by
  unfold reset_daily_budgets_brand
  dsimp only
  split
  · rw [foldl_invariant_fun
      (fun s' => (findCampaign s' cid).map (fun c => (c.brand_id, c.is_active))) _
      (fun s' c => inner_step_core clock b s' c cid)]
    rw [findCampaign_congr (show (writeSummary (get_or_create_for_date s b clock.today).2
      (Summary.reset_daily_spend b
        (get_or_create_for_date s b clock.today).1)).campaigns = s.campaigns
      from (get_or_create_frame s b clock.today).2.1) cid]
  · rw [findCampaign_congr (get_or_create_frame s b clock.today).2.1 cid]

theorem reset_daily_step_statusOf_other (clock : Clock) (s : DBState) (b : Brand)
    (cid : Nat) (hndC : WFcampaigns s)
    (hne : campaignBrandId s cid ≠ some b.id) :
    statusOf (reset_daily_budgets_brand clock s b) cid = statusOf s cid := by
  have hcamp1 : (get_or_create_for_date s b clock.today).2.campaigns = s.campaigns :=
    (get_or_create_frame s b clock.today).2.1
  unfold reset_daily_budgets_brand
  dsimp only
  split
  · have hpe : ∀ c ∈ (writeSummary (get_or_create_for_date s b clock.today).2
        (Summary.reset_daily_spend b
          (get_or_create_for_date s b clock.today).1)).campaigns.filter
        (fun c => c.brand_id == b.id && c.is_active &&
          c.status == CStatus.PAUSED_BUDGET), c.id ≠ cid := by
      intro c hc heq
      obtain ⟨hcm, hpred⟩ := List.mem_filter.mp hc
      have hcm_s : c ∈ s.campaigns := by
        rw [show (writeSummary (get_or_create_for_date s b clock.today).2
          (Summary.reset_daily_spend b
            (get_or_create_for_date s b clock.today).1)).campaigns = s.campaigns
          from hcamp1] at hcm
        exact hcm
      have hfc : findCampaign s cid = some c := by
        rw [← heq]
        exact findCampaign_self s hndC c hcm_s
      have hbid : c.brand_id = b.id := by
        simp only [Bool.and_eq_true, beq_iff_eq] at hpred
        exact hpred.1.1
      apply hne
      unfold campaignBrandId
      rw [hfc]
      simp [hbid]
    rw [inner_fold_statusOf_notin clock b _ _ cid hpe]
    exact statusOf_congr (show (writeSummary (get_or_create_for_date s b clock.today).2
      (Summary.reset_daily_spend b
        (get_or_create_for_date s b clock.today).1)).campaigns = s.campaigns
      from hcamp1) cid
  · exact statusOf_congr hcamp1 cid

theorem reset_daily_step_summaries_other (clock : Clock) (s : DBState) (b : Brand)
    (bid : Nat) (d' : Date) (hk : KeyedOK s) (hne : bid ≠ b.id) :
    (reset_daily_budgets_brand clock s b).summaries bid d' = s.summaries bid d' := by
  have hkey := get_or_create_key s b clock.today hk
  have hoth : (get_or_create_for_date s b clock.today).2.summaries bid d' =
      s.summaries bid d' :=
    get_or_create_summaries_other s b clock.today bid d' (fun hcon => hne hcon.1)
  unfold reset_daily_budgets_brand
  dsimp only
  split
  · rw [(foldl_sameNonCampaign _ (inner_step_same clock b) _ _).2.2.2]
    rw [show (writeSummary (get_or_create_for_date s b clock.today).2
      (Summary.reset_daily_spend b
        (get_or_create_for_date s b clock.today).1)).summaries bid d' =
      (if bid = (Summary.reset_daily_spend b
          (get_or_create_for_date s b clock.today).1).brand_id ∧
        d' = (Summary.reset_daily_spend b
          (get_or_create_for_date s b clock.today).1).date
        then some (Summary.reset_daily_spend b
          (get_or_create_for_date s b clock.today).1)
        else (get_or_create_for_date s b clock.today).2.summaries bid d') from rfl]
    rw [if_neg]
    · exact hoth
    · intro hcon
      apply hne
      rw [hcon.1]
      exact hkey.1
  · exact hoth

theorem reset_daily_fold_frame (clock : Clock) :
    ∀ (tl : List Brand) (s : DBState) (bidp : Nat),
      KeyedOK s → WFcampaigns s → (∀ bb ∈ tl, bb.id ≠ bidp) →
      (∀ d', (List.foldl (reset_daily_budgets_brand clock) s tl).summaries bidp d' =
        s.summaries bidp d') ∧
      (∀ cid, campaignBrandId s cid = some bidp →
        statusOf (List.foldl (reset_daily_budgets_brand clock) s tl) cid =
          statusOf s cid) ∧
      (∀ cid, (findCampaign (List.foldl (reset_daily_budgets_brand clock) s tl)
          cid).map (fun c => (c.brand_id, c.is_active)) =
        (findCampaign s cid).map (fun c => (c.brand_id, c.is_active))) ∧
      (List.foldl (reset_daily_budgets_brand clock) s tl).schedules =
        s.schedules ∧
      KeyedOK (List.foldl (reset_daily_budgets_brand clock) s tl) ∧
      WFcampaigns (List.foldl (reset_daily_budgets_brand clock) s tl) := by
  intro tl
  induction tl with
  | nil =>
    intro s bidp hk hndC _
    exact ⟨fun _ => rfl, fun _ _ => rfl, fun _ => rfl, rfl, hk, hndC⟩
  | cons bb t ih =>
    intro s bidp hk hndC hne
    have hnebb : bb.id ≠ bidp := hne bb (List.mem_cons_self bb t)
    have hk1 : KeyedOK (reset_daily_budgets_brand clock s bb) :=
      reset_daily_step_keyed clock s bb hk
    have hndC1 : WFcampaigns (reset_daily_budgets_brand clock s bb) := by
      unfold WFcampaigns
      rw [reset_daily_step_ids clock s bb]
      exact hndC
    obtain ⟨ih1, ih2, ih3, ih4, ih5, ih6⟩ := ih (reset_daily_budgets_brand clock s bb)
      bidp hk1 hndC1 (fun x hx => hne x (List.mem_cons_of_mem bb hx))
    rw [List.foldl_cons]
    refine ⟨?_, ?_, ?_, ?_, ih5, ih6⟩
    · intro d'
      rw [ih1 d']
      exact reset_daily_step_summaries_other clock s bb bidp d' hk
        (fun heq => hnebb heq.symm)
    · intro cid hbid
      have hbid1 : campaignBrandId (reset_daily_budgets_brand clock s bb) cid =
          some bidp := by
        rw [reset_daily_step_brandId clock s bb cid]
        exact hbid
      rw [ih2 cid hbid1]
      exact reset_daily_step_statusOf_other clock s bb cid hndC
        (fun heq => hnebb (Option.some.inj (hbid ▸ heq)).symm)
    · intro cid
      rw [ih3 cid]
      exact reset_daily_step_core clock s bb cid
    · rw [ih4]
      exact reset_daily_step_schedules clock s bb

theorem get_or_create_daily_spend (s : DBState) (b : Brand) (d : Date) :
    (get_or_create_for_date s b d).1.daily_spend = observed_daily s b d := by
  unfold get_or_create_for_date observed_daily
  cases h : s.summaries b.id d with
  | none => rfl
  | some x => rfl

theorem get_or_create_self (s : DBState) (b : Brand) (d : Date) :
    (get_or_create_for_date s b d).2.summaries b.id d =
      some (get_or_create_for_date s b d).1 := by
  unfold get_or_create_for_date
  cases h : s.summaries b.id d with
  | some x => exact h
  | none =>
    dsimp only [writeSummary]
    rw [if_pos ⟨rfl, rfl⟩]

theorem can_run_now_campaign_congr (s : DBState) (clock : Clock) (b : Brand)
    {c c' : Campaign} (hid : c'.id = c.id) (hact : c'.is_active = c.is_active) :
    can_run_now s clock b c' = can_run_now s clock b c := by
  unfold can_run_now is_within_dayparting_window
  rw [hid, hact]

theorem inner_fold_activates (clock : Clock) (b : Brand) :
    ∀ (l : List Campaign) (s : DBState),
      (l.map (·.id)).Nodup →
      ∀ c ∈ l, can_run_now s clock b c = true →
        (findCampaign s c.id).isSome = true →
        statusOf (List.foldl (fun s c =>
          if can_run_now s clock b c then Campaign.activate s clock b c else s)
          s l) c.id = some .ACTIVE := by
  intro l
  induction l with
  | nil => intro s _ c hc; cases hc
  | cons c0 t ih =>
    intro s hnd c hc hcan hsome
    have hndp := List.nodup_cons.mp (by rw [List.map_cons] at hnd; exact hnd)
    rw [List.foldl_cons]
    rcases List.mem_cons.mp hc with rfl | hct
    · rw [inner_fold_statusOf_notin clock b t _ c.id
        (fun c' hc' heq => hndp.1 (heq ▸ List.mem_map_of_mem (·.id) hc'))]
      rw [if_pos hcan]
      unfold Campaign.activate
      rw [if_pos hcan]
      rw [statusOf_setStatus]
      rw [if_pos rfl]
      obtain ⟨c', hc'⟩ := Option.isSome_iff_exists.mp hsome
      unfold statusOf
      rw [hc']
      rfl
    · have hsame := inner_step_same clock b s c0
      refine ih _ hndp.2 c hct ?_ ?_
      · rw [can_run_now_congr clock b c hsame.2.1
          (congrFun (congrFun hsame.2.2.2 b.id) clock.today)]
        exact hcan
      · have hcore := inner_step_core clock b s c0 c.id
        cases hfs : findCampaign s c.id with
        | none =>
          rw [hfs] at hsome
          exact Bool.noConfusion hsome
        | some c1 =>
          rw [hfs] at hcore
          cases hfc : findCampaign (if can_run_now s clock b c0 = true then
              Campaign.activate s clock b c0 else s) c.id with
          | none =>
            rw [hfc] at hcore
            simp at hcore
          | some c2 => rfl

theorem core_extract {s' : DBState} {cid : Nat} {c : Campaign}
    (h : (findCampaign s' cid).map (fun c => (c.brand_id, c.is_active)) =
      some (c.brand_id, c.is_active)) :
    ∃ c', findCampaign s' cid = some c' ∧ c'.brand_id = c.brand_id ∧
      c'.is_active = c.is_active := by
  cases hf : findCampaign s' cid with
  | none =>
    rw [hf] at h
    simp at h
  | some c'' =>
    rw [hf] at h
    simp only [Option.map_some', Option.some.injEq, Prod.mk.injEq] at h
    exact ⟨c'', rfl, h.1, h.2⟩

/-- Claim C6 (corrected). After one run of the daily-reset sweep, every
active brand has a summary row for today, and its `daily_spend` is 0 provided
the pre-sweep value was not negative. But campaigns are reactivated only for
brands whose observed summary had `daily_spend > 0` at sweep time: for those
brands every manually-enabled `PAUSED_BUDGET` campaign whose `can_run_now`
holds (equivalently at the moment of its activation check and in the final
state) ends `ACTIVE`; for a brand whose `daily_spend` was already `<= 0`
(in particular a brand whose today-row the sweep itself freshly created) the
reactivation loop is skipped and every campaign of that brand keeps its
previous status. -/
theorem c6_theorem (st : DBState) (clock : Clock)
    (hndB : WFbrands st) (hndC : WFcampaigns st) (hk : KeyedOK st) :
    ∀ b ∈ st.brands, b.is_active = true →
      (∃ srow, (reset_daily_budgets clock st).summaries b.id clock.today =
          some srow ∧
        (0 ≤ observed_daily st b clock.today → srow.daily_spend = 0)) ∧
      (0 < observed_daily st b clock.today →
        ∀ c ∈ st.campaigns, c.brand_id = b.id → c.is_active = true →
          c.status = .PAUSED_BUDGET →
          can_run_now (reset_daily_budgets clock st) clock b c = true →
          statusOf (reset_daily_budgets clock st) c.id = some .ACTIVE) ∧
      (observed_daily st b clock.today ≤ 0 →
        ∀ c ∈ st.campaigns, c.brand_id = b.id →
          statusOf (reset_daily_budgets clock st) c.id = statusOf st c.id) := by
  intro b hbmem hbact
  have hblmem : b ∈ st.brands.filter (·.is_active) :=
    List.mem_filter.mpr ⟨hbmem, hbact⟩
  obtain ⟨l1, l2, hsplit⟩ := List.append_of_mem hblmem
  have hblnd : ((st.brands.filter (·.is_active)).map (·.id)).Nodup :=
    List.Nodup.sublist (List.Sublist.map (·.id) (List.filter_sublist st.brands))
      hndB
  rw [hsplit, List.map_append, List.map_cons] at hblnd
  have hmid := List.nodup_cons.mp (List.nodup_middle.mp hblnd)
  have hb1 : ∀ bb ∈ l1, bb.id ≠ b.id := by
    intro bb hbb heq
    exact hmid.1 (List.mem_append.mpr (Or.inl (heq ▸ List.mem_map_of_mem (·.id) hbb)))
  have hb2 : ∀ bb ∈ l2, bb.id ≠ b.id := by
    intro bb hbb heq
    exact hmid.1 (List.mem_append.mpr (Or.inr (heq ▸ List.mem_map_of_mem (·.id) hbb)))
  set s1 := List.foldl (reset_daily_budgets_brand clock) st l1 with hs1
  obtain ⟨pre_sum, pre_stat, pre_core, pre_sched, hk1, hndC1⟩ :=
    reset_daily_fold_frame clock l1 st b.id hk hndC hb1
  set sb := reset_daily_budgets_brand clock s1 b with hsb
  have hkb : KeyedOK sb := reset_daily_step_keyed clock s1 b hk1
  have hndCb : WFcampaigns sb := by
    unfold WFcampaigns
    rw [hsb, reset_daily_step_ids clock s1 b]
    exact hndC1
  obtain ⟨post_sum, post_stat, post_core, post_sched, _, _⟩ :=
    reset_daily_fold_frame clock l2 sb b.id hkb hndCb hb2
  have hfinal : reset_daily_budgets clock st =
      List.foldl (reset_daily_budgets_brand clock) sb l2 := by
    unfold reset_daily_budgets
    rw [hsplit, List.foldl_append, List.foldl_cons]
  have hkey := get_or_create_key s1 b clock.today hk1
  have hobs : observed_daily s1 b clock.today = observed_daily st b clock.today := by
    unfold observed_daily
    rw [pre_sum clock.today]
  have hds : (get_or_create_for_date s1 b clock.today).1.daily_spend =
      observed_daily st b clock.today := by
    rw [get_or_create_daily_spend]
    exact hobs
  set st2 := writeSummary (get_or_create_for_date s1 b clock.today).2
    (Summary.reset_daily_spend b (get_or_create_for_date s1 b clock.today).1)
    with hst2
  set paused := st2.campaigns.filter (fun c =>
    c.brand_id == b.id && c.is_active && c.status == CStatus.PAUSED_BUDGET)
    with hpauseddef
  have hc2eq : st2.campaigns = s1.campaigns :=
    (get_or_create_frame s1 b clock.today).2.1
  refine ⟨?_, ?_, ?_⟩
  · -- existence of the summary row with conditional zero daily_spend
    rw [hfinal, post_sum clock.today]
    by_cases hpos : 0 < observed_daily st b clock.today
    · have hposd : (get_or_create_for_date s1 b clock.today).1.daily_spend > 0 := by
        rw [hds]
        exact hpos
      have hsbr : sb = List.foldl (fun s c =>
          if can_run_now s clock b c then Campaign.activate s clock b c else s)
          st2 paused := by
        rw [hsb]
        unfold reset_daily_budgets_brand
        dsimp only
        rw [if_pos hposd]
      rw [hsbr, (foldl_sameNonCampaign _ (inner_step_same clock b) paused st2).2.2.2]
      have hst2sum : st2.summaries b.id clock.today =
          some (Summary.reset_daily_spend b
            (get_or_create_for_date s1 b clock.today).1) := by
        rw [hst2]
        dsimp only [writeSummary]
        rw [if_pos ⟨hkey.1.symm, hkey.2.symm⟩]
      rw [hst2sum]
      exact ⟨_, rfl, fun _ => rfl⟩
    · have hposd : ¬ ((get_or_create_for_date s1 b clock.today).1.daily_spend > 0) := by
        rw [hds]
        exact hpos
      have hsbr : sb = (get_or_create_for_date s1 b clock.today).2 := by
        rw [hsb]
        unfold reset_daily_budgets_brand
        dsimp only
        rw [if_neg hposd]
      rw [hsbr, get_or_create_self]
      refine ⟨_, rfl, ?_⟩
      intro hge
      rw [hds]
      omega
  · -- activation completeness when the observed daily spend was positive
    intro hpos c hcmem hcbid hcact hcstat hcanf
    have hposd : (get_or_create_for_date s1 b clock.today).1.daily_spend > 0 := by
      rw [hds]
      exact hpos
    have hsbr : sb = List.foldl (fun s c =>
        if can_run_now s clock b c then Campaign.activate s clock b c else s)
        st2 paused := by
      rw [hsb]
      unfold reset_daily_budgets_brand
      dsimp only
      rw [if_pos hposd]
    have hfc_st : findCampaign st c.id = some c := findCampaign_self st hndC c hcmem
    have hbid_st : campaignBrandId st c.id = some b.id := by
      unfold campaignBrandId
      rw [hfc_st]
      simp [hcbid]
    have hc1 := pre_core c.id
    rw [hfc_st] at hc1
    simp only [Option.map_some'] at hc1
    obtain ⟨c', hfc1, hcb', hca'⟩ := core_extract hc1
    have hc'id : c'.id = c.id := by simpa using List.find?_some hfc1
    have hst1 : statusOf s1 c.id = statusOf st c.id := pre_stat c.id hbid_st
    have hstatc' : c'.status = .PAUSED_BUDGET := by
      have h1 : statusOf s1 c.id = some c'.status := by
        unfold statusOf
        rw [hfc1]
        rfl
      have h2 : statusOf st c.id = some c.status := by
        unfold statusOf
        rw [hfc_st]
        rfl
      rw [h1, h2] at hst1
      rw [Option.some.inj hst1, hcstat]
    have hc'mem2 : c' ∈ st2.campaigns := by
      rw [hc2eq]
      exact List.mem_of_find?_eq_some hfc1
    have hndC2 : WFcampaigns st2 := by
      unfold WFcampaigns
      rw [hc2eq]
      exact hndC1
    have hc'filter : c' ∈ paused := by
      rw [hpauseddef]
      refine List.mem_filter.mpr ⟨hc'mem2, ?_⟩
      simp [hcb', hcbid, hca', hcact, hstatc']
    have hsched2 : st2.schedules = (reset_daily_budgets clock st).schedules := by
      rw [hfinal, post_sched, hsbr,
        (foldl_sameNonCampaign _ (inner_step_same clock b) paused st2).2.1]
    have hsum2 : st2.summaries b.id clock.today =
        (reset_daily_budgets clock st).summaries b.id clock.today := by
      rw [hfinal, post_sum clock.today, hsbr,
        (foldl_sameNonCampaign _ (inner_step_same clock b) paused st2).2.2.2]
    have hcan2 : can_run_now st2 clock b c' = true := by
      rw [can_run_now_campaign_congr st2 clock b hc'id hca']
      rw [can_run_now_congr clock b c hsched2 hsum2]
      exact hcanf
    have hfc2 : findCampaign st2 c'.id = some c' :=
      findCampaign_self st2 hndC2 c' hc'mem2
    have hpausednd : (paused.map (·.id)).Nodup := by
      rw [hpauseddef]
      exact List.Nodup.sublist
        (List.Sublist.map (·.id) (List.filter_sublist st2.campaigns)) hndC2
    have hact2 := inner_fold_activates clock b paused st2 hpausednd c' hc'filter
      hcan2 (by rw [hfc2]; rfl)
    have hbid_sb : campaignBrandId sb c.id = some b.id := by
      rw [hsb, reset_daily_step_brandId clock s1 b c.id]
      unfold campaignBrandId
      rw [hfc1]
      simp [hcb', hcbid]
    rw [hfinal, post_stat c.id hbid_sb, hsbr, ← hc'id]
    exact hact2
  · -- frame: nothing changes for this brand when the observed spend was <= 0
    intro hle c hcmem hcbid
    have hposd : ¬ ((get_or_create_for_date s1 b clock.today).1.daily_spend > 0) := by
      rw [hds]
      omega
    have hsbr : sb = (get_or_create_for_date s1 b clock.today).2 := by
      rw [hsb]
      unfold reset_daily_budgets_brand
      dsimp only
      rw [if_neg hposd]
    have hfc_st : findCampaign st c.id = some c := findCampaign_self st hndC c hcmem
    have hbid_st : campaignBrandId st c.id = some b.id := by
      unfold campaignBrandId
      rw [hfc_st]
      simp [hcbid]
    have hbid_s1 : campaignBrandId s1 c.id = some b.id := by
      have hc1 := pre_core c.id
      rw [hfc_st] at hc1
      simp only [Option.map_some'] at hc1
      obtain ⟨c', hfc1, hcb', hca'⟩ := core_extract hc1
      unfold campaignBrandId
      rw [hfc1]
      simp [hcb', hcbid]
    have hbid_sb : campaignBrandId sb c.id = some b.id := by
      rw [hsb, reset_daily_step_brandId clock s1 b c.id]
      exact hbid_s1
    rw [hfinal, post_stat c.id hbid_sb, hsbr]
    rw [statusOf_congr (get_or_create_frame s1 b clock.today).2.1 c.id]
    exact pre_stat c.id hbid_st

theorem wState6_keyed : KeyedOK wState6 := by
  intro bid d s hs
  simp only [wState6] at hs
  split at hs
  · rename_i hc
    cases hs
    exact ⟨hc.1.symm, hc.2.symm⟩
  · cases hs

/-- Counterexample for C6 as stated: in `wState6` the brand is active, its
today-summary already has `daily_spend = 0`, and campaign 7 is
manually-enabled, `PAUSED_BUDGET`, and satisfies `can_run_now` (also after
the sweep) — yet one run of the daily reset leaves it `PAUSED_BUDGET`,
because the reactivation loop only runs when the observed `daily_spend` was
positive. -/
theorem c6_counterexample :
    wBrand ∈ wState6.brands ∧ wBrand.is_active = true ∧
    wCampaign ∈ wState6.campaigns ∧ wCampaign.brand_id = wBrand.id ∧
    wCampaign.is_active = true ∧ wCampaign.status = .PAUSED_BUDGET ∧
    can_run_now (reset_daily_budgets wClock wState6) wClock wBrand wCampaign
      = true ∧
    statusOf (reset_daily_budgets wClock wState6) wCampaign.id =
      some .PAUSED_BUDGET := by
  refine ⟨?_, ?_, ?_, ?_, ?_, ?_, ?_, ?_⟩ <;> decide

/-- Witness for C6: the theorem applied to `wState6`, `wClock` and `wBrand`
with all hypotheses discharged. -/
theorem c6_witness :
    (∃ srow, (reset_daily_budgets wClock wState6).summaries wBrand.id
        wClock.today = some srow ∧
      (0 ≤ observed_daily wState6 wBrand wClock.today → srow.daily_spend = 0)) ∧
    (0 < observed_daily wState6 wBrand wClock.today →
      ∀ c ∈ wState6.campaigns, c.brand_id = wBrand.id → c.is_active = true →
        c.status = .PAUSED_BUDGET →
        can_run_now (reset_daily_budgets wClock wState6) wClock wBrand c = true →
        statusOf (reset_daily_budgets wClock wState6) c.id = some .ACTIVE) ∧
    (observed_daily wState6 wBrand wClock.today ≤ 0 →
      ∀ c ∈ wState6.campaigns, c.brand_id = wBrand.id →
        statusOf (reset_daily_budgets wClock wState6) c.id =
          statusOf wState6 c.id) :=
  c6_theorem wState6 wClock
    (by show (wState6.brands.map (·.id)).Nodup; decide)
    (by show (wState6.campaigns.map (·.id)).Nodup; decide)
    wState6_keyed wBrand (by decide) (by decide)
